import Mathlib

/-!
Verification of the connection module `src/libpagekite/pkconn.c` of libpagekite.

The development shallowly embeds the connection object (`struct pk_conn`) and the
operations the specification talks about.  Machine integers are modelled as `Nat`/`Int`
(none of the counters involved can overflow in the scenarios considered), buffers are
modelled by their fill offset and capacity (the claims under study only concern byte
counts, never buffer contents), and the platform socket / TLS collaborators are
modelled as explicit event lists consumed call by call.

Build-flag note: the write/flush path (`pkc_raw_write`, `pkc_flush`, `pkc_write`) is
embedded for the plain-transport build (the `HAVE_OPENSSL` conditional sections of
those functions removed by the preprocessor), which is the configuration the write
path claims describe.  The read/handshake path (`pkc_do_handshake`, `pkc_read`) is
embedded with the TLS branches present, since its claims mention TLS conditions.
-/

/-- Platform errno value for "interrupted system call" (`EINTR`). -/
def EINTR : Nat := 4

/-- Platform errno value for an input/output error; the source writes `errno = EIO`
when the flush iteration ceiling is exhausted. -/
def EIO_ : Nat := 5

/-- Platform errno value for "resource temporarily unavailable" (`EAGAIN`). -/
def EAGAIN : Nat := 11

/-- Platform errno value for "operation would block"; on the modelled platform
`EWOULDBLOCK == EAGAIN`, as on Linux. -/
def EWOULDBLOCK : Nat := 11

/-- Platform errno value for "connection reset by peer" (`ECONNRESET`). -/
def ECONNRESET : Nat := 104

/-- The connection status bits of `pkconn.h`, modelled as a set of named boolean
flags.  `CONN_STATUS_BITS` covers all of them, so clearing that mask clears the
whole record. -/
structure ConnStatus where
  changing : Bool
  allocated : Bool
  listening : Bool
  want_read : Bool
  want_write : Bool
  broken : Bool
  cls_read : Bool
  cls_write : Bool
deriving DecidableEq, Repr

/-- The empty status flag set (`CONN_STATUS_UNKNOWN`). -/
def statusNone : ConnStatus :=
  ⟨false, false, false, false, false, false, false, false⟩

/-- Bitwise OR of two status flag sets (`status |= bits`). -/
def ConnStatus.union (a b : ConnStatus) : ConnStatus :=
  ⟨a.changing || b.changing, a.allocated || b.allocated, a.listening || b.listening,
   a.want_read || b.want_read, a.want_write || b.want_write, a.broken || b.broken,
   a.cls_read || b.cls_read, a.cls_write || b.cls_write⟩

/-- Transport state of a connection: `CONN_CLEAR_DATA`, `CONN_SSL_HANDSHAKE`,
`CONN_SSL_DATA` (the spec names them PlainData, TlsHandshake, TlsData). -/
inductive ConnState where
  | clearData
  | sslHandshake
  | sslData
deriving DecidableEq, Repr

/-- Modelled from the spec: `CONN_WINDOW_SIZE_KB_INITIAL` is defined in `pkconn.h`,
which is not under `src/`; the spec only requires that `reset` restores the send
window "to its initial constant", so its exact value is immaterial here. -/
def CONN_WINDOW_SIZE_KB_INITIAL : Nat := 32

/-- The connection object `struct pk_conn`.  Buffers are modelled by fill offset
plus capacity; `blocking` tracks the socket's blocking mode as toggled by
`set_blocking` / `set_non_blocking`; `ssl` records whether a TLS session handle is
attached; `want_write_len` is the pending TLS partial-write length. -/
structure Conn where
  sockfd : Int
  status : ConnStatus
  state : ConnState
  activity : Nat
  in_buffer_pos : Nat
  in_buffer_size : Nat
  out_buffer_pos : Nat
  out_buffer_size : Nat
  send_window_kb : Nat
  read_bytes : Nat
  read_kb : Nat
  sent_kb : Nat
  wrote_bytes : Nat
  reported_kb : Nat
  ssl : Bool
  want_write_len : Nat
  blocking : Bool
deriving DecidableEq, Repr

/-- One result of the platform write primitive `PKS_write`: either a byte count
(the platform never writes more than requested, so counts are clamped at the call
site) or a failure together with the errno it leaves behind. -/
inductive WRes where
  | wrote (n : Nat)
  | err (e : Nat)
deriving DecidableEq, Repr

/-- Result of `pkc_raw_write`: the updated connection, the ambient errno, the
return value, and the remaining platform events. -/
structure RawOut where
  conn : Conn
  errno : Nat
  wrote : Int
  env : List WRes
deriving DecidableEq, Repr

/-- `pkc_raw_write` (plain transport): a single attempt to hand bytes to the
transport.  A zero length skips the platform call entirely (`if (length) ...`).
The event list models successive `PKS_write` results; an exhausted event list is
modelled as a fatal I/O error (the transport yields no further events).  A
successful count is clamped to the requested length, per the `write(2)` contract;
positive results are folded into the `wrote_bytes` counter (the source guards the
update with `wrote > 0`; adding a zero count is the identical no-op).  Successful
platform calls leave errno unchanged; failures store the event's errno. -/
def pkc_raw_write (c : Conn) (e : Nat) (len : Nat) (env : List WRes) : RawOut :=
  if len = 0 then ⟨c, e, 0, env⟩
  else
    match env with
    | [] => ⟨c, EIO_, -1, []⟩
    | WRes.wrote n :: rest =>
        let w := min n len
        ⟨{ c with wrote_bytes := c.wrote_bytes + w }, e, Int.ofNat w, rest⟩
    | WRes.err e2 :: rest => ⟨c, e2, -1, rest⟩

/-- Flush mode argument: `BLOCKING_FLUSH` or `NON_BLOCKING_FLUSH`. -/
inductive FlushMode where
  | blocking
  | nonBlocking
deriving DecidableEq, Repr

/-- Which `return` statement of `pkc_flush` produced the result: the invalid-socket
early return ("Bogus flush?"), the iteration-ceiling early return ("BUG! Flush
failed after 1000 iterations"), or the common exit at the end of the function. -/
inductive FlushExit where
  | bogus
  | exhausted
  | normal
deriving DecidableEq, Repr

/-- State carried out of the first `pkc_flush` loop (draining the output buffer):
connection, errno, accumulated `flushed`, the last `wrote` value, the remaining
`loops_left` counter, and the remaining platform events. -/
structure Loop1Out where
  conn : Conn
  errno : Nat
  flushed : Int
  wroteLast : Int
  loops : Int
  env : List WRes
deriving DecidableEq, Repr

/-- First loop of `pkc_flush`: `do { wrote = pkc_raw_write(...); ... } while
(mode == BLOCKING_FLUSH && out_buffer_pos > 0 && loops_left-- > 0)`.  A partial
write compacts the buffer (`memmove`) and reduces the fill offset; a failure with
an errno other than `EINTR`/`0` breaks out of the loop.  The post-decrement in the
loop condition is modelled exactly: the counter is tested, then decremented, but
only when the earlier conjuncts held. -/
def flushLoop1 : FlushMode → Conn → Nat → Int → Int → List WRes → Loop1Out
  | _, c, e, fl, loops, [] =>
      if c.out_buffer_pos = 0 then ⟨c, e, fl, 0, loops, []⟩
      else ⟨c, EIO_, fl, -1, loops, []⟩
  | mode, c, e, fl, loops, x :: rest =>
      if c.out_buffer_pos = 0 then ⟨c, e, fl, 0, loops, x :: rest⟩
      else
        let r := pkc_raw_write c e c.out_buffer_pos (x :: rest)
        if 0 < r.wrote then
          let c2 := { r.conn with out_buffer_pos := r.conn.out_buffer_pos - r.wrote.toNat }
          if mode = FlushMode.blocking ∧ c2.out_buffer_pos ≠ 0 then
            if 0 < loops then flushLoop1 mode c2 r.errno (fl + r.wrote) (loops - 1) rest
            else ⟨c2, r.errno, fl + r.wrote, r.wrote, loops - 1, rest⟩
          else ⟨c2, r.errno, fl + r.wrote, r.wrote, loops, rest⟩
        else if r.errno ≠ EINTR ∧ r.errno ≠ 0 then ⟨r.conn, r.errno, fl, r.wrote, loops, rest⟩
        else if mode = FlushMode.blocking then
          if 0 < loops then flushLoop1 mode r.conn r.errno fl (loops - 1) rest
          else ⟨r.conn, r.errno, fl, r.wrote, loops - 1, rest⟩
        else ⟨r.conn, r.errno, fl, r.wrote, loops, rest⟩

/-- State carried out of the second `pkc_flush` loop (writing the new data):
connection, errno, bytes of new data written, accumulated `flushed`, the last
`bytes` value, remaining `loops_left`, remaining events. -/
structure Loop2Out where
  conn : Conn
  errno : Nat
  wrote : Nat
  flushed : Int
  bytes : Int
  loops : Int
  env : List WRes
deriving DecidableEq, Repr

/-- Second loop of `pkc_flush`: `while (length > wrote) { bytes = pkc_raw_write
(data+wrote, length-wrote); ... }`.  Positive results advance `wrote`/`flushed`;
a failure with a fatal errno breaks; otherwise the shared `loops_left` counter is
tested (`loops_left-- <= 0`), and on exhaustion errno is forced to `EIO` and the
loop breaks. -/
def flushLoop2 : Conn → Nat → Nat → Nat → Int → Int → Int → List WRes → Loop2Out
  | c, e, wrote, len, fl, bytes, loops, [] =>
      if len ≤ wrote then ⟨c, e, wrote, fl, bytes, loops, []⟩
      else ⟨c, EIO_, wrote, fl, -1, loops, []⟩
  | c, e, wrote, len, fl, bytes, loops, x :: rest =>
      if len ≤ wrote then ⟨c, e, wrote, fl, bytes, loops, x :: rest⟩
      else
        let r := pkc_raw_write c e (len - wrote) (x :: rest)
        if 0 < r.wrote then
          flushLoop2 r.conn r.errno (wrote + r.wrote.toNat) len (fl + r.wrote) r.wrote loops rest
        else if r.errno ≠ EINTR ∧ r.errno ≠ 0 then ⟨r.conn, r.errno, wrote, fl, r.wrote, loops, rest⟩
        else if loops ≤ 0 then ⟨r.conn, EIO_, wrote, fl, r.wrote, loops - 1, rest⟩
        else flushLoop2 r.conn r.errno wrote len fl r.wrote (loops - 1) rest

/-- Result of `pkc_flush`: final connection, ambient errno, return value, the
return statement that produced it, and the remaining platform events. -/
structure FlushRes where
  conn : Conn
  errno : Nat
  ret : Int
  exitPath : FlushExit
  env : List WRes
deriving DecidableEq, Repr

/-- The common exit of `pkc_flush`: when blocking mode was used the socket is put
back into non-blocking mode (`set_non_blocking`) before returning. -/
def pkc_flush_finish (c : Conn) (e : Nat) (ret : Int) (mode : FlushMode) (env : List WRes) : FlushRes :=
  if mode = FlushMode.blocking then ⟨{ c with blocking := false }, e, ret, FlushExit.normal, env⟩
  else ⟨c, e, ret, FlushExit.normal, env⟩

/-- Everything `pkc_flush` does after the invalid-socket early return and the switch
to blocking mode: drain the buffer, check the iteration ceiling (`loops_left <= 0`
precedes the error classification), classify errors (a non-retryable write error
sets `ClosedForWrite`), write the new data (`newData` is its length; `NULL` becomes
`none`) when in blocking mode with a fully drained buffer, and restore non-blocking
mode on the common exit. -/
def pkc_flush_body (c0 : Conn) (newData : Option Nat) (mode : FlushMode) (env : List WRes) : FlushRes :=
  let o1 := flushLoop1 mode c0 0 0 1000 env
    if o1.loops ≤ 0 then ⟨o1.conn, EIO_, -1, FlushExit.exhausted, o1.env⟩
    else if o1.wroteLast < 0 then
      let c2 := if o1.errno ≠ EAGAIN ∧ o1.errno ≠ EWOULDBLOCK ∧ o1.errno ≠ 0
                then { o1.conn with status := { o1.conn.status with cls_write := true } }
                else o1.conn
      pkc_flush_finish c2 o1.errno o1.wroteLast mode o1.env
    else
      match newData with
      | some dlen =>
          if mode = FlushMode.blocking ∧ o1.conn.out_buffer_pos = 0 then
            let o2 := flushLoop2 o1.conn o1.errno 0 dlen 0 0 o1.loops o1.env
            if o2.bytes < 0 then
              let c4 := if o2.errno ≠ EAGAIN ∧ o2.errno ≠ EWOULDBLOCK ∧ o2.errno ≠ 0
                        then { o2.conn with status := { o2.conn.status with cls_write := true } }
                        else o2.conn
              pkc_flush_finish c4 o2.errno o2.bytes mode o2.env
            else pkc_flush_finish o2.conn o2.errno o2.flushed mode o2.env
          else pkc_flush_finish o1.conn o1.errno o1.flushed mode o1.env
      | none => pkc_flush_finish o1.conn o1.errno o1.flushed mode o1.env

/-- `pkc_flush` (plain transport), assembling the early return, the switch to
blocking mode (`set_blocking`), and the body above. -/
def pkc_flush (c : Conn) (newData : Option Nat) (mode : FlushMode) (env : List WRes) : FlushRes :=
  if c.sockfd < 0 then ⟨c, 0, -1, FlushExit.bogus, env⟩
  else pkc_flush_body (if mode = FlushMode.blocking then { c with blocking := true } else c)
    newData mode env

/-- The direct-write retry loop of `pkc_write`:
`do { wrote = pkc_raw_write(pkc, data, length); } while ((wrote < 0) &&
((errno == EINTR) || (errno == 0)))`, entered with `errno = 0`. -/
def writeLoop : Conn → Nat → Nat → List WRes → RawOut
  | c, e, len, [] => pkc_raw_write c e len []
  | c, e, len, x :: rest =>
      let r := pkc_raw_write c e len (x :: rest)
      if r.wrote < 0 ∧ (r.errno = EINTR ∨ r.errno = 0) then writeLoop r.conn r.errno len rest
      else r

/-- Result of `pkc_write`: return value, final connection, remaining platform
events, and whether the blocking-flush fallback (step 2b) was invoked. -/
structure WriteOut where
  ret : Int
  conn : Conn
  env : List WRes
  blockingFlush : Bool
deriving DecidableEq, Repr

/-- The tail of `pkc_write` (everything after the direct-write attempt, whose
outcome is `b`): when fewer bytes than submitted went out directly, errors are
zeroed (`wrote = 0`), and the remainder is copied into the output buffer when it
fits in the free space (`PKC_OUT_FREE`, step 2a), else the whole remainder is
handed to a blocking flush (step 2b); a negative blocking-flush result makes the
call return `-1`, otherwise the full submitted length is returned. -/
def pkc_write_tail (b : RawOut) (len : Nat) : WriteOut :=
  if b.wrote < Int.ofNat len then
    let w0 : Nat := if b.wrote < 0 then 0 else b.wrote.toNat
    let wleft := len - w0
    if wleft ≤ b.conn.out_buffer_size - b.conn.out_buffer_pos then
      ⟨Int.ofNat len, { b.conn with out_buffer_pos := b.conn.out_buffer_pos + wleft }, b.env, false⟩
    else
      let f := pkc_flush b.conn (some wleft) FlushMode.blocking b.env
      if f.ret < 0 then ⟨-1, f.conn, f.env, true⟩
      else ⟨Int.ofNat len, f.conn, f.env, true⟩
  else ⟨Int.ofNat len, b.conn, b.env, false⟩

/-- `pkc_write` (plain transport).  Step 1: if the output buffer is non-empty, a
non-blocking flush is attempted (its result ignored).  Step 2: if the buffer is
now empty, the new data is written directly, retrying on `EINTR`/no-error.  The
remainder is then handled by `pkc_write_tail` above. -/
def pkc_write (c : Conn) (len : Nat) (env : List WRes) : WriteOut :=
  let a : Conn × List WRes :=
    if c.out_buffer_pos ≠ 0 then
      ((pkc_flush c none FlushMode.nonBlocking env).conn,
       (pkc_flush c none FlushMode.nonBlocking env).env)
    else (c, env)
  let b : RawOut :=
    if a.1.out_buffer_pos = 0 then writeLoop a.1 0 len a.2
    else ⟨a.1, 0, 0, a.2⟩
  pkc_write_tail b len

/-- The KB rollover loop of `pkc_read`:
`while (read_bytes >= 1024) { read_kb += 1; read_bytes -= 1024; }`. -/
def kbRoll (bytes kb : Nat) : Nat × Nat :=
  if 1024 ≤ bytes then kbRoll (bytes - 1024) (kb + 1) else (bytes, kb)
termination_by bytes
decreasing_by omega

/-- TLS error classification returned by `SSL_get_error`, restricted to the
constructors the source distinguishes: `SSL_ERROR_NONE`, `SSL_ERROR_WANT_READ`,
`SSL_ERROR_WANT_WRITE`, `SSL_ERROR_SYSCALL`, and every other value (`other`). -/
inductive SslErr where
  | none_
  | wantRead
  | wantWrite
  | syscall
  | other
deriving DecidableEq, Repr

/-- Outcome of one `SSL_do_handshake` attempt: completed (`1`), want-read,
want-write, or any other (fatal) error. -/
inductive HsRes where
  | ok
  | wantRead
  | wantWrite
  | fail
deriving DecidableEq, Repr

/-- `pkc_start_handshake`: moves to the handshake state and records the
want-read/want-write condition that interrupted I/O. -/
def pkc_start_handshake (c : Conn) (err : SslErr) : Conn :=
  let c1 := { c with state := ConnState.sslHandshake }
  if err = SslErr.wantRead then { c1 with status := { c1.status with want_read := true } }
  else if err = SslErr.wantWrite then { c1 with status := { c1.status with want_write := true } }
  else c1

/-- `pkc_end_handshake`: clears `WANT_READ`/`WANT_WRITE` and enters the TLS data
state. -/
def pkc_end_handshake (c : Conn) : Conn :=
  { c with status := { c.status with want_read := false, want_write := false },
           state := ConnState.sslData }

/-- `pkc_do_handshake`: clears stale error state (`errno = 0`), drives one
`SSL_do_handshake` step (outcome supplied by the environment), and classifies the
result; the returned `Nat` is the ambient errno afterwards.  A fatal outcome sets
`Broken` and surfaces `ECONNRESET`. -/
def pkc_do_handshake (c : Conn) (r : HsRes) : Conn × Nat :=
  match r with
  | HsRes.ok => (pkc_end_handshake c, 0)
  | HsRes.wantRead => ({ c with status := { c.status with want_read := true } }, 0)
  | HsRes.wantWrite => ({ c with status := { c.status with want_write := true } }, 0)
  | HsRes.fail => ({ c with status := { c.status with broken := true } }, ECONNRESET)

/-- Input of one `pkc_read` call: the raw result of the platform/TLS read
(`res`, clamped at the call site to the free space of the input buffer, per the
`read(2)` contract), the ambient errno after the call, the TLS error
classification (consulted only in the TLS data state on a negative result,
mirroring `ssl_errno = SSL_ERROR_NONE` initialisation), and the handshake outcome
used when the connection is still handshaking. -/
structure ReadIn where
  res : Int
  errno : Nat
  ssl_errno : SslErr
  hs : HsRes
deriving DecidableEq, Repr

/-- `pkc_read` (TLS build).  In the handshake state (and not `Broken`) it drives
one handshake step and returns 0.  Otherwise it reads into the free tail of the
input buffer: a positive count advances the fill offset, refreshes the activity
timestamp and rolls the byte count into the read-byte/KB counters; zero sets
`ClosedForRead`; a negative result is classified — TLS want-write restarts the
handshake, the want-read/syscall/none conditions (and the plain transport) are
classified by errno (`0`/`EINTR`/`EAGAIN` retryable, else `Broken`), any other
TLS condition sets `Broken`.  Returns (connection, byte count, errno). -/
def pkc_read (c : Conn) (inp : ReadIn) (now : Nat) : Conn × Int × Nat :=
  if c.state = ConnState.sslHandshake ∧ c.status.broken = false then
    let r := pkc_do_handshake c inp.hs
    (r.1, 0, r.2)
  else
    let free : Nat := c.in_buffer_size - c.in_buffer_pos
    let bytes : Int := if Int.ofNat free < inp.res then Int.ofNat free else inp.res
    let ssl_errno := if c.state = ConnState.sslData ∧ bytes < 0 then inp.ssl_errno
                     else SslErr.none_
    if 0 < bytes then
      let rk := kbRoll (c.read_bytes + bytes.toNat) c.read_kb
      ({ c with in_buffer_pos := c.in_buffer_pos + bytes.toNat,
                activity := now,
                read_bytes := rk.1,
                read_kb := rk.2 }, bytes, inp.errno)
    else if bytes = 0 then
      ({ c with status := { c.status with cls_read := true } }, 0, inp.errno)
    else
      match ssl_errno with
      | SslErr.wantWrite => (pkc_start_handshake c SslErr.wantWrite, bytes, inp.errno)
      | SslErr.other => ({ c with status := { c.status with broken := true } }, bytes, inp.errno)
      | _ =>
          if inp.errno = 0 ∨ inp.errno = EINTR ∨ inp.errno = EAGAIN then (c, bytes, inp.errno)
          else ({ c with status := { c.status with broken := true } }, bytes, inp.errno)

/-- `pkc_reset_conn`: universal teardown.  Clears all status bits then ORs in the
caller-supplied flags, refreshes the activity timestamp, zeroes both buffer
offsets and all counters, restores the initial send window, closes the socket
(handle becomes `-1`), returns to the plain-data state, and releases any TLS
session (clearing the pending TLS partial-write length). -/
def pkc_reset_conn (c : Conn) (status : ConnStatus) (now : Nat) : Conn :=
  { sockfd := -1,
    status := ConnStatus.union statusNone status,
    state := ConnState.clearData,
    activity := now,
    in_buffer_pos := 0,
    in_buffer_size := c.in_buffer_size,
    out_buffer_pos := 0,
    out_buffer_size := c.out_buffer_size,
    send_window_kb := CONN_WINDOW_SIZE_KB_INITIAL,
    read_bytes := 0,
    read_kb := 0,
    sent_kb := 0,
    wrote_bytes := 0,
    reported_kb := 0,
    ssl := false,
    want_write_len := 0,
    blocking := c.blocking }

/-- Modelled from the spec: the `ERR_CONNECT_LISTEN` sentinel lives in
`pkerror.h`, which is not under `src/`; the spec only says failures yield a
"ListenFailed" error, so the value is an arbitrary non-port sentinel. -/
def ERR_CONNECT_LISTEN : Int := -3

/-- Environment of one `pkc_listen` call: the descriptor produced by
`PKS_socket` (negative on failure), whether `PKS_bind` and `PKS_listen`
succeed, the port reported by `getsockname` (already in host order, `none` when
the query fails), and the port the caller's bind address requested (the source
never inspects it; OS consistency — `getsockname` reporting the requested port
when it was nonzero, or the ephemeral assignment when it was 0 — is a property
of the environment). -/
structure ListenEnv where
  sock : Int
  bindOk : Bool
  listenOk : Bool
  getsockname : Option Nat
  port_requested : Nat
deriving DecidableEq, Repr

/-- `pkc_listen`: resets the connection to `Changing|Allocated|Listening`,
creates/binds/listens; on any failure the socket is released, the handle is set
to `-1` and `ERR_CONNECT_LISTEN` is returned.  On success the local-address
query's port is returned when the query succeeds, else the sentinel `1`. -/
def pkc_listen (c : Conn) (env : ListenEnv) (_backlog : Nat) (now : Nat) : Conn × Int :=
  let c0 := pkc_reset_conn c
    { statusNone with changing := true, allocated := true, listening := true } now
  if env.sock < 0 ∨ env.bindOk = false ∨ env.listenOk = false then
    ({ c0 with sockfd := -1 }, ERR_CONNECT_LISTEN)
  else
    let c1 := { c0 with sockfd := env.sock }
    match env.getsockname with
    | some port => (c1, Int.ofNat port)
    | none => (c1, 1)

/-- Modelled from the spec: `pk_format_skb` lives in `pkproto.c`, which is not
under `src/`; the spec describes the report as "a short text line of the form
`<keyword> <session_id> <kb>`".  Only the message's identity matters to the
claims. -/
def pk_format_skb (sid : String) (kb : Nat) : List Nat :=
  (("SKB " ++ sid ++ " " ++ toString kb ++ "\n").data.map Char.toNat)

/-- `pkc_report_progress`: once `wrote_bytes` reaches the reporting increment
(`CONN_REPORT_INCREMENT` KB — the constant lives in `pkconn.h`, not under
`src/`, so it is taken as the parameter `inc`), the whole KB are rolled into
`reported_kb`, the remainder stays in `wrote_bytes`, and the formatted report is
written through the companion connection `fe`.  Returns the updated connection,
the updated companion, and the emitted message (if any). -/
def pkc_report_progress (c : Conn) (sid : String) (inc : Nat) (fe : Conn) (feEnv : List WRes) :
    Conn × Conn × Option (List Nat) :=
  if inc * 1024 ≤ c.wrote_bytes then
    let c1 := { c with reported_kb := c.reported_kb + c.wrote_bytes / 1024,
                       wrote_bytes := c.wrote_bytes % 1024 }
    let msg := pk_format_skb sid c1.reported_kb
    let w := pkc_write fe msg.length feEnv
    (c1, w.conn, some msg)
  else (c, fe, none)

/-- A baseline plain connection used by the concrete witnesses below. -/
def connW : Conn :=
  { sockfd := 1, status := statusNone, state := ConnState.clearData, activity := 0,
    in_buffer_pos := 0, in_buffer_size := 8192, out_buffer_pos := 0, out_buffer_size := 50,
    send_window_kb := 32, read_bytes := 0, read_kb := 0, sent_kb := 0, wrote_bytes := 0,
    reported_kb := 0, ssl := false, want_write_len := 0, blocking := false }

/-- A connection with one byte queued in its output buffer. -/
def connB : Conn := { connW with sockfd := 0, out_buffer_pos := 1 }

/-- A connection in the TLS data state. -/
def connSSL : Conn := { connW with state := ConnState.sslData, ssl := true }

/-- A connection still in the TLS handshake state. -/
def connHS : Conn := { connW with state := ConnState.sslHandshake, ssl := true }

/-- A small-buffer connection (capacity 4) used by the C1 counterexample. -/
def connA : Conn := { connW with out_buffer_size := 4 }

/-- An unallocated connection with a non-empty buffer, used by the C1
counterexample. -/
def connNoFd : Conn := { connW with sockfd := -1, out_buffer_pos := 5, out_buffer_size := 5 }

/-- Concrete read inputs used by the C5 counterexample and witness. -/
def rInWW : ReadIn := ⟨-1, 0, SslErr.wantWrite, HsRes.ok⟩

/-- A retryable plain-read failure (would-block). -/
def rInAgain : ReadIn := ⟨-1, EAGAIN, SslErr.none_, HsRes.ok⟩

/-- A read input whose handshake outcome is want-read. -/
def rInHS : ReadIn := ⟨-1, 0, SslErr.none_, HsRes.wantRead⟩

/-- A successful listen environment that requested concrete port 8080; the OS
local-address query accordingly reports 8080. -/
def listenEnvC : ListenEnv := ⟨3, true, true, some 8080, 8080⟩


theorem statusNone_union (s : ConnStatus) : ConnStatus.union statusNone s = s := by
  cases s
  simp [ConnStatus.union, statusNone]

theorem kbRoll_spec (bytes : Nat) : ∀ kb : Nat,
    1024 * (kbRoll bytes kb).2 + (kbRoll bytes kb).1 = 1024 * kb + bytes
    ∧ (kbRoll bytes kb).1 < 1024 := by
  induction bytes using Nat.strong_induction_on with
  | _ b ih =>
    intro kb
    unfold kbRoll
    split_ifs with h
    · have := ih (b - 1024) (by omega) (kb + 1)
      omega
    · simp
      omega

theorem pkc_flush_finish_spec (c : Conn) (e : Nat) (ret : Int) (mode : FlushMode) (env : List WRes) :
    (pkc_flush_finish c e ret mode env).ret = ret
    ∧ (pkc_flush_finish c e ret mode env).errno = e
    ∧ (pkc_flush_finish c e ret mode env).env = env
    ∧ (pkc_flush_finish c e ret mode env).exitPath = FlushExit.normal
    ∧ (pkc_flush_finish c e ret mode env).conn.out_buffer_pos = c.out_buffer_pos
    ∧ (pkc_flush_finish c e ret mode env).conn.out_buffer_size = c.out_buffer_size
    ∧ (pkc_flush_finish c e ret mode env).conn.wrote_bytes = c.wrote_bytes
    ∧ (pkc_flush_finish c e ret mode env).conn.sockfd = c.sockfd := by
  unfold pkc_flush_finish
  split_ifs <;> simp

/-- C2: for every connection and flag set `F`, after `pkc_reset_conn(F)` the socket
handle is `-1`, both buffer offsets are 0, all read/write counters (`read_bytes`,
`read_kb`, `sent_kb`, `wrote_bytes`, `reported_kb`) are 0, the send window equals
the configured initial constant, the transport state is plain data, and the status
flag set equals exactly `F`. -/
theorem pkc_reset_conn_baseline (c : Conn) (f : ConnStatus) (now : Nat) :
    (pkc_reset_conn c f now).sockfd = -1
    ∧ (pkc_reset_conn c f now).in_buffer_pos = 0
    ∧ (pkc_reset_conn c f now).out_buffer_pos = 0
    ∧ (pkc_reset_conn c f now).read_bytes = 0
    ∧ (pkc_reset_conn c f now).read_kb = 0
    ∧ (pkc_reset_conn c f now).sent_kb = 0
    ∧ (pkc_reset_conn c f now).wrote_bytes = 0
    ∧ (pkc_reset_conn c f now).reported_kb = 0
    ∧ (pkc_reset_conn c f now).send_window_kb = CONN_WINDOW_SIZE_KB_INITIAL
    ∧ (pkc_reset_conn c f now).state = ConnState.clearData
    ∧ (pkc_reset_conn c f now).status = f := by
  simp [pkc_reset_conn, statusNone_union]

/-- C4: one TLS handshake step has exactly three outcomes — on completion both
`WantRead`/`WantWrite` are cleared and the state becomes TLS data; on want-read or
want-write the corresponding flag is set and the state is unchanged (in particular
it remains in handshake when it was there); on any other error `Broken` is set and
`ECONNRESET` is surfaced.  Moreover a handshake reporting want-read any number of
times before succeeding ends in the TLS data state with both flags clear. -/
theorem pkc_do_handshake_outcomes :
    (∀ c : Conn,
        (pkc_do_handshake c HsRes.ok).1.status.want_read = false
        ∧ (pkc_do_handshake c HsRes.ok).1.status.want_write = false
        ∧ (pkc_do_handshake c HsRes.ok).1.state = ConnState.sslData)
    ∧ (∀ c : Conn,
        (pkc_do_handshake c HsRes.wantRead).1.status.want_read = true
        ∧ (pkc_do_handshake c HsRes.wantRead).1.state = c.state
        ∧ (pkc_do_handshake c HsRes.wantRead).1.status.broken = c.status.broken)
    ∧ (∀ c : Conn,
        (pkc_do_handshake c HsRes.wantWrite).1.status.want_write = true
        ∧ (pkc_do_handshake c HsRes.wantWrite).1.state = c.state
        ∧ (pkc_do_handshake c HsRes.wantWrite).1.status.broken = c.status.broken)
    ∧ (∀ c : Conn,
        (pkc_do_handshake c HsRes.fail).1.status.broken = true
        ∧ (pkc_do_handshake c HsRes.fail).2 = ECONNRESET
        ∧ (pkc_do_handshake c HsRes.fail).1.state = c.state)
    ∧ (∀ (c : Conn) (k : Nat),
        ((List.replicate k HsRes.wantRead ++ [HsRes.ok]).foldl
            (fun a h => (pkc_do_handshake a h).1) c).state = ConnState.sslData
        ∧ ((List.replicate k HsRes.wantRead ++ [HsRes.ok]).foldl
            (fun a h => (pkc_do_handshake a h).1) c).status.want_read = false
        ∧ ((List.replicate k HsRes.wantRead ++ [HsRes.ok]).foldl
            (fun a h => (pkc_do_handshake a h).1) c).status.want_write = false) := by
  refine ⟨?_, ?_, ?_, ?_, ?_⟩
  · intro c
    simp [pkc_do_handshake, pkc_end_handshake]
  · intro c
    simp [pkc_do_handshake]
  · intro c
    simp [pkc_do_handshake]
  · intro c
    simp [pkc_do_handshake]
  · intro c k
    induction k generalizing c with
    | zero => simp [pkc_do_handshake, pkc_end_handshake]
    | succ m ih =>
        simpa [List.replicate_succ] using ih ((pkc_do_handshake c HsRes.wantRead).1)

/-- C10: flushing a connection whose socket handle is invalid returns `-1`
immediately, leaving the connection (buffer, counters, status flags, blocking
mode) and the platform event list untouched. -/
theorem pkc_flush_invalid_socket (c : Conn) (d : Option Nat) (mode : FlushMode)
    (env : List WRes) (h : c.sockfd < 0) :
    pkc_flush c d mode env = ⟨c, 0, -1, FlushExit.bogus, env⟩ := by
  simp [pkc_flush, h]

/-- C10 witness: the theorem applied to a concrete unallocated connection. -/
theorem pkc_flush_invalid_socket_witness :
    (pkc_reset_conn connW statusNone 0).sockfd < 0
    ∧ pkc_flush (pkc_reset_conn connW statusNone 0) none FlushMode.blocking [WRes.err EINTR]
        = ⟨pkc_reset_conn connW statusNone 0, 0, -1, FlushExit.bogus, [WRes.err EINTR]⟩ :=
  ⟨by decide,
   pkc_flush_invalid_socket (pkc_reset_conn connW statusNone 0) none FlushMode.blocking
     [WRes.err EINTR] (by decide)⟩

/-- C6: with a reporting increment of `inc` KB, calling `pkc_report_progress` when
the unreported byte counter holds `inc*1024 + r` bytes (`r < 1024`) emits exactly
one report over the companion connection carrying the increment rolled into the
cumulative reported-KB counter, and leaves `wrote_bytes = r`; with fewer unreported
bytes than the increment nothing is emitted and nothing changes. -/
theorem pkc_report_progress_increment :
    (∀ (c fe : Conn) (sid : String) (inc r : Nat) (feEnv : List WRes),
        r < 1024 → c.wrote_bytes = inc * 1024 + r →
        (pkc_report_progress c sid inc fe feEnv).2.2
            = some (pk_format_skb sid (c.reported_kb + inc))
        ∧ (pkc_report_progress c sid inc fe feEnv).1.reported_kb = c.reported_kb + inc
        ∧ (pkc_report_progress c sid inc fe feEnv).1.wrote_bytes = r)
    ∧ (∀ (c fe : Conn) (sid : String) (inc : Nat) (feEnv : List WRes),
        c.wrote_bytes < inc * 1024 →
        pkc_report_progress c sid inc fe feEnv = (c, fe, none)) := by
  constructor
  · intro c fe sid inc r feEnv hr hw
    have hge : inc * 1024 ≤ c.wrote_bytes := by omega
    have hdiv : c.wrote_bytes / 1024 = inc := by omega
    have hmod : c.wrote_bytes % 1024 = r := by omega
    simp [pkc_report_progress, hge, hdiv, hmod]
  · intro c fe sid inc feEnv hlt
    have hge : ¬ inc * 1024 ≤ c.wrote_bytes := by omega
    simp [pkc_report_progress, hge]

/-- C6 witness: increment 4 KB, 4*1024+7 unreported bytes → one report of 4 KB and
7 pending bytes; 100 unreported bytes → nothing. -/
theorem pkc_report_progress_increment_witness :
    ((pkc_report_progress { connW with wrote_bytes := 4 * 1024 + 7, reported_kb := 10 }
        "s1" 4 connW [WRes.wrote 16]).2.2 = some (pk_format_skb "s1" (10 + 4))
      ∧ (pkc_report_progress { connW with wrote_bytes := 4 * 1024 + 7, reported_kb := 10 }
        "s1" 4 connW [WRes.wrote 16]).1.reported_kb = 10 + 4
      ∧ (pkc_report_progress { connW with wrote_bytes := 4 * 1024 + 7, reported_kb := 10 }
        "s1" 4 connW [WRes.wrote 16]).1.wrote_bytes = 7)
    ∧ pkc_report_progress { connW with wrote_bytes := 100 } "s1" 4 connW [WRes.wrote 16]
        = ({ connW with wrote_bytes := 100 }, connW, none) := by
  constructor
  · have h := pkc_report_progress_increment.1
      { connW with wrote_bytes := 4 * 1024 + 7, reported_kb := 10 } connW "s1" 4 7
      [WRes.wrote 16] (by omega) (by simp)
    simpa using h
  · exact pkc_report_progress_increment.2 { connW with wrote_bytes := 100 } connW "s1" 4
      [WRes.wrote 16] (by simp)
theorem pkc_raw_write_conn (c : Conn) (e len : Nat) (env : List WRes) :
    (pkc_raw_write c e len env).conn.out_buffer_pos = c.out_buffer_pos
    ∧ (pkc_raw_write c e len env).conn.out_buffer_size = c.out_buffer_size
    ∧ (pkc_raw_write c e len env).conn.sockfd = c.sockfd
    ∧ (pkc_raw_write c e len env).conn.status = c.status
    ∧ (pkc_raw_write c e len env).conn.blocking = c.blocking
    ∧ (pkc_raw_write c e len env).conn.wrote_bytes
        = c.wrote_bytes + (pkc_raw_write c e len env).wrote.toNat
    ∧ (pkc_raw_write c e len env).wrote.toNat ≤ len
    ∧ ((pkc_raw_write c e len env).wrote = 0 → len = 0 ∨ WRes.wrote 0 ∈ env)
    ∧ (∀ y ∈ (pkc_raw_write c e len env).env, y ∈ env) := by
  unfold pkc_raw_write
  split_ifs with h
  · simp [h]
  · match env with
    | [] => simp
    | WRes.wrote n :: rest =>
        refine ⟨by simp, by simp, by simp, by simp, by simp, by simp; omega, by simp, ?_, ?_⟩
        · intro h0
          right
          simp at h0
          have hn : n = 0 := by omega
          simp [hn]
        · intro y hy
          simp at hy
          exact List.mem_cons_of_mem _ hy
    | WRes.err e2 :: rest =>
        refine ⟨by simp, by simp, by simp, by simp, by simp, by simp, by simp, by simp, ?_⟩
        intro y hy
        simp at hy
        exact List.mem_cons_of_mem _ hy

theorem flushLoop1_spec (mode : FlushMode) (c : Conn) (e : Nat) (fl loops : Int) (env : List WRes) :
      (flushLoop1 mode c e fl loops env).conn.out_buffer_pos
          + (flushLoop1 mode c e fl loops env).conn.wrote_bytes
        = c.out_buffer_pos + c.wrote_bytes
      ∧ (flushLoop1 mode c e fl loops env).conn.out_buffer_size = c.out_buffer_size
      ∧ (flushLoop1 mode c e fl loops env).conn.sockfd = c.sockfd
      ∧ (flushLoop1 mode c e fl loops env).conn.status = c.status
      ∧ (flushLoop1 mode c e fl loops env).conn.blocking = c.blocking
      ∧ (∀ y ∈ (flushLoop1 mode c e fl loops env).env, y ∈ env)
      ∧ env.length ≤ (flushLoop1 mode c e fl loops env).env.length + (loops.toNat + 1)
      ∧ ((∀ y ∈ env, y ≠ WRes.wrote 0) → mode = FlushMode.blocking →
          0 < (flushLoop1 mode c e fl loops env).loops →
          0 ≤ (flushLoop1 mode c e fl loops env).wroteLast →
          (flushLoop1 mode c e fl loops env).conn.out_buffer_pos = 0) := by
  induction mode, c, e, fl, loops, env using flushLoop1.induct with
  | case1 mode c e fl loops hp => simp [flushLoop1, hp]
  | case2 mode c e fl loops hp => simp [flushLoop1, hp]
  | case3 mode c e fl loops x rest hp => simp [flushLoop1, hp]
  | case4 mode c e fl loops x rest hp r hw c2 hcond hloops ih =>
      have hr : r = pkc_raw_write c e c.out_buffer_pos (x :: rest) := rfl
      obtain ⟨p1, p2, p3, p4, p5, p6, p7, p8, p9⟩ := pkc_raw_write_conn c e c.out_buffer_pos (x :: rest)
      rw [← hr] at p1 p2 p3 p4 p5 p6 p7 p8 p9
      have e1 : c2.out_buffer_pos = c.out_buffer_pos - r.wrote.toNat := by
        show r.conn.out_buffer_pos - r.wrote.toNat = _
        rw [p1]
      have e2 : c2.wrote_bytes = c.wrote_bytes + r.wrote.toNat := p6
      have e3 : c2.out_buffer_size = c.out_buffer_size := p2
      have e4 : c2.sockfd = c.sockfd := p3
      have e5 : c2.status = c.status := p4
      have e6 : c2.blocking = c.blocking := p5
      have hstep : flushLoop1 mode c e fl loops (x :: rest)
          = flushLoop1 mode c2 r.errno (fl + r.wrote) (loops - 1) rest := by
        rw [flushLoop1, if_neg hp]
        simp only [if_pos hw, if_pos hcond, if_pos hloops]
      clear_value r c2
      obtain ⟨i1, i2, i3, i4, i5, i6, i7, i8⟩ := ih
      rw [hstep]
      refine ⟨by omega, i2.trans e3, i3.trans e4, i4.trans e5, i5.trans e6, ?_, ?_, ?_⟩
      · intro y hy
        exact List.mem_cons_of_mem x (i6 y hy)
      · simp only [List.length_cons]
        omega
      · intro hok hm hl hw2
        have := i8 (fun y hy => hok y (List.mem_cons_of_mem x hy)) hm hl hw2
        omega
  | case5 mode c e fl loops x rest hp r hw c2 hcond hloops =>
      have hr : r = pkc_raw_write c e c.out_buffer_pos (x :: rest) := rfl
      obtain ⟨p1, p2, p3, p4, p5, p6, p7, p8, p9⟩ := pkc_raw_write_conn c e c.out_buffer_pos (x :: rest)
      rw [← hr] at p1 p2 p3 p4 p5 p6 p7 p8 p9
      have e1 : c2.out_buffer_pos = c.out_buffer_pos - r.wrote.toNat := by
        show r.conn.out_buffer_pos - r.wrote.toNat = _
        rw [p1]
      have e2 : c2.wrote_bytes = c.wrote_bytes + r.wrote.toNat := p6
      have e3 : c2.out_buffer_size = c.out_buffer_size := p2
      have e4 : c2.sockfd = c.sockfd := p3
      have e5 : c2.status = c.status := p4
      have e6 : c2.blocking = c.blocking := p5
      have hstep : flushLoop1 mode c e fl loops (x :: rest)
          = ⟨c2, r.errno, fl + r.wrote, r.wrote, loops - 1, rest⟩ := by
        rw [flushLoop1, if_neg hp]
        simp only [if_pos hw, if_pos hcond, if_neg hloops]
      clear_value r c2
      rw [hstep]
      refine ⟨by simp; omega, by simpa using e3, by simpa using e4, by simpa using e5,
        by simpa using e6, ?_, ?_, ?_⟩
      · intro y hy
        simp at hy
        exact List.mem_cons_of_mem x hy
      · simp
      · intro hok hm hl hw2
        simp at hl
        omega
  | case6 mode c e fl loops x rest hp r hw c2 hcond =>
      have hr : r = pkc_raw_write c e c.out_buffer_pos (x :: rest) := rfl
      obtain ⟨p1, p2, p3, p4, p5, p6, p7, p8, p9⟩ := pkc_raw_write_conn c e c.out_buffer_pos (x :: rest)
      rw [← hr] at p1 p2 p3 p4 p5 p6 p7 p8 p9
      have e1 : c2.out_buffer_pos = c.out_buffer_pos - r.wrote.toNat := by
        show r.conn.out_buffer_pos - r.wrote.toNat = _
        rw [p1]
      have e2 : c2.wrote_bytes = c.wrote_bytes + r.wrote.toNat := p6
      have e3 : c2.out_buffer_size = c.out_buffer_size := p2
      have e4 : c2.sockfd = c.sockfd := p3
      have e5 : c2.status = c.status := p4
      have e6 : c2.blocking = c.blocking := p5
      have hstep : flushLoop1 mode c e fl loops (x :: rest)
          = ⟨c2, r.errno, fl + r.wrote, r.wrote, loops, rest⟩ := by
        rw [flushLoop1, if_neg hp]
        simp only [if_pos hw, if_neg hcond]
      clear_value r c2
      rw [hstep]
      refine ⟨by simp; omega, by simpa using e3, by simpa using e4, by simpa using e5,
        by simpa using e6, ?_, ?_, ?_⟩
      · intro y hy
        simp at hy
        exact List.mem_cons_of_mem x hy
      · simp
      · intro hok hm hl hw2
        simp only
        by_cases hz : c2.out_buffer_pos = 0
        · exact hz
        · exact absurd ⟨hm, hz⟩ hcond
  | case7 mode c e fl loops x rest hp r hw hfatal =>
      have hr : r = pkc_raw_write c e c.out_buffer_pos (x :: rest) := rfl
      obtain ⟨p1, p2, p3, p4, p5, p6, p7, p8, p9⟩ := pkc_raw_write_conn c e c.out_buffer_pos (x :: rest)
      rw [← hr] at p1 p2 p3 p4 p5 p6 p7 p8 p9
      have hstep : flushLoop1 mode c e fl loops (x :: rest)
          = ⟨r.conn, r.errno, fl, r.wrote, loops, rest⟩ := by
        rw [flushLoop1, if_neg hp]
        simp only [if_neg hw, if_pos hfatal]
      clear_value r
      rw [hstep]
      refine ⟨by simp; omega, by simpa using p2, by simpa using p3, by simpa using p4,
        by simpa using p5, ?_, ?_, ?_⟩
      · intro y hy
        simp at hy
        exact List.mem_cons_of_mem x hy
      · simp
      · intro hok hm hl hw2
        simp at hw2
        have hz : r.wrote = 0 := by omega
        rcases p8 hz with h0 | h0
        · exact absurd h0 hp
        · exact absurd rfl (hok _ h0)
  | case8 c e fl loops x rest hp r hw hnfatal hloops ih =>
      have hr : r = pkc_raw_write c e c.out_buffer_pos (x :: rest) := rfl
      obtain ⟨p1, p2, p3, p4, p5, p6, p7, p8, p9⟩ := pkc_raw_write_conn c e c.out_buffer_pos (x :: rest)
      rw [← hr] at p1 p2 p3 p4 p5 p6 p7 p8 p9
      have hstep : flushLoop1 FlushMode.blocking c e fl loops (x :: rest)
          = flushLoop1 FlushMode.blocking r.conn r.errno fl (loops - 1) rest := by
        rw [flushLoop1, if_neg hp]
        simp [if_neg hw, if_neg hnfatal, if_pos hloops]
      clear_value r
      obtain ⟨i1, i2, i3, i4, i5, i6, i7, i8⟩ := ih
      rw [hstep]
      have t0 : r.wrote.toNat = 0 := by omega
      refine ⟨by omega, i2.trans p2, i3.trans p3, i4.trans p4, i5.trans p5, ?_, ?_, ?_⟩
      · intro y hy
        exact List.mem_cons_of_mem x (i6 y hy)
      · simp only [List.length_cons]
        omega
      · intro hok hm hl hw2
        have := i8 (fun y hy => hok y (List.mem_cons_of_mem x hy)) hm hl hw2
        omega
  | case9 c e fl loops x rest hp r hw hnfatal hnloops =>
      have hr : r = pkc_raw_write c e c.out_buffer_pos (x :: rest) := rfl
      obtain ⟨p1, p2, p3, p4, p5, p6, p7, p8, p9⟩ := pkc_raw_write_conn c e c.out_buffer_pos (x :: rest)
      rw [← hr] at p1 p2 p3 p4 p5 p6 p7 p8 p9
      have hstep : flushLoop1 FlushMode.blocking c e fl loops (x :: rest)
          = ⟨r.conn, r.errno, fl, r.wrote, loops - 1, rest⟩ := by
        rw [flushLoop1, if_neg hp]
        simp [if_neg hw, if_neg hnfatal, if_neg hnloops]
      clear_value r
      rw [hstep]
      have t0 : r.wrote.toNat = 0 := by omega
      refine ⟨by simp; omega, by simpa using p2, by simpa using p3, by simpa using p4,
        by simpa using p5, ?_, ?_, ?_⟩
      · intro y hy
        simp at hy
        exact List.mem_cons_of_mem x hy
      · simp
      · intro hok hm hl hw2
        simp at hl
        omega
  | case10 mode c e fl loops x rest hp r hw hfatal hmode =>
      have hr : r = pkc_raw_write c e c.out_buffer_pos (x :: rest) := rfl
      obtain ⟨p1, p2, p3, p4, p5, p6, p7, p8, p9⟩ := pkc_raw_write_conn c e c.out_buffer_pos (x :: rest)
      rw [← hr] at p1 p2 p3 p4 p5 p6 p7 p8 p9
      have hstep : flushLoop1 mode c e fl loops (x :: rest)
          = ⟨r.conn, r.errno, fl, r.wrote, loops, rest⟩ := by
        rw [flushLoop1, if_neg hp]
        simp only [if_neg hw, if_neg hfatal, if_neg hmode]
      clear_value r
      rw [hstep]
      have t0 : r.wrote.toNat = 0 := by omega
      refine ⟨by simp; omega, by simpa using p2, by simpa using p3, by simpa using p4,
        by simpa using p5, ?_, ?_, ?_⟩
      · intro y hy
        simp at hy
        exact List.mem_cons_of_mem x hy
      · simp
      · intro hok hm hl hw2
        exact absurd hm hmode
theorem flushLoop2_spec (c : Conn) (e wrote len : Nat) (fl bytes loops : Int) (env : List WRes) :
      (flushLoop2 c e wrote len fl bytes loops env).conn.out_buffer_pos = c.out_buffer_pos
    ∧ (flushLoop2 c e wrote len fl bytes loops env).conn.out_buffer_size = c.out_buffer_size
    ∧ (flushLoop2 c e wrote len fl bytes loops env).conn.sockfd = c.sockfd
    ∧ (flushLoop2 c e wrote len fl bytes loops env).conn.status = c.status
    ∧ (flushLoop2 c e wrote len fl bytes loops env).conn.blocking = c.blocking
    ∧ (flushLoop2 c e wrote len fl bytes loops env).conn.wrote_bytes + wrote
        = c.wrote_bytes + (flushLoop2 c e wrote len fl bytes loops env).wrote
    ∧ wrote ≤ (flushLoop2 c e wrote len fl bytes loops env).wrote
    ∧ (wrote ≤ len → (flushLoop2 c e wrote len fl bytes loops env).wrote ≤ len)
    ∧ (∀ y ∈ (flushLoop2 c e wrote len fl bytes loops env).env, y ∈ env)
    ∧ ((∀ y ∈ env, y ≠ WRes.wrote 0) → wrote ≤ len →
        0 ≤ (flushLoop2 c e wrote len fl bytes loops env).bytes →
        (flushLoop2 c e wrote len fl bytes loops env).wrote = len) := by
  induction c, e, wrote, len, fl, bytes, loops, env using flushLoop2.induct with
  | case1 c e wrote len fl bytes loops hle =>
      simp [flushLoop2, hle]
      omega
  | case2 c e wrote len fl bytes loops hle =>
      simp [flushLoop2, hle]
  | case3 c e wrote len fl bytes loops x rest hle =>
      simp [flushLoop2, hle]
      omega
  | case4 c e wrote len fl bytes loops x rest hle r hw ih =>
      have hr : r = pkc_raw_write c e (len - wrote) (x :: rest) := rfl
      obtain ⟨p1, p2, p3, p4, p5, p6, p7, p8, p9⟩ := pkc_raw_write_conn c e (len - wrote) (x :: rest)
      rw [← hr] at p1 p2 p3 p4 p5 p6 p7 p8 p9
      have hstep : flushLoop2 c e wrote len fl bytes loops (x :: rest)
          = flushLoop2 r.conn r.errno (wrote + r.wrote.toNat) len (fl + r.wrote) r.wrote loops rest := by
        rw [flushLoop2]
        simp only [if_neg hle, if_pos hw]
      clear_value r
      obtain ⟨i1, i2, i3, i4, i5, i6, i7, i8, i9, i10⟩ := ih
      rw [hstep]
      refine ⟨i1.trans p1, i2.trans p2, i3.trans p3, i4.trans p4, i5.trans p5,
        by omega, by omega, by omega, ?_, ?_⟩
      · intro y hy
        exact List.mem_cons_of_mem x (i9 y hy)
      · intro hok hle2 hb
        exact i10 (fun y hy => hok y (List.mem_cons_of_mem x hy)) (by omega) hb
  | case5 c e wrote len fl bytes loops x rest hle r hw hfatal =>
      have hr : r = pkc_raw_write c e (len - wrote) (x :: rest) := rfl
      obtain ⟨p1, p2, p3, p4, p5, p6, p7, p8, p9⟩ := pkc_raw_write_conn c e (len - wrote) (x :: rest)
      rw [← hr] at p1 p2 p3 p4 p5 p6 p7 p8 p9
      have hstep : flushLoop2 c e wrote len fl bytes loops (x :: rest)
          = ⟨r.conn, r.errno, wrote, fl, r.wrote, loops, rest⟩ := by
        rw [flushLoop2]
        simp only [if_neg hle, if_neg hw, if_pos hfatal]
      clear_value r
      rw [hstep]
      have t0 : r.wrote.toNat = 0 := by omega
      refine ⟨by simpa using p1, by simpa using p2, by simpa using p3, by simpa using p4,
        by simpa using p5, by simp; omega, by simp, by simp, ?_, ?_⟩
      · intro y hy
        simp at hy
        exact List.mem_cons_of_mem x hy
      · intro hok hle2 hb
        simp at hb
        have : r.wrote ≠ 0 := by
          intro h0
          rcases p8 h0 with h1 | h1
          · omega
          · exact absurd rfl (hok _ h1)
        omega
  | case6 c e wrote len fl bytes loops x rest hle r hw hfatal hloops =>
      have hr : r = pkc_raw_write c e (len - wrote) (x :: rest) := rfl
      obtain ⟨p1, p2, p3, p4, p5, p6, p7, p8, p9⟩ := pkc_raw_write_conn c e (len - wrote) (x :: rest)
      rw [← hr] at p1 p2 p3 p4 p5 p6 p7 p8 p9
      have hstep : flushLoop2 c e wrote len fl bytes loops (x :: rest)
          = ⟨r.conn, EIO_, wrote, fl, r.wrote, loops - 1, rest⟩ := by
        rw [flushLoop2]
        simp only [if_neg hle, if_neg hw, if_neg hfatal, if_pos hloops]
      clear_value r
      rw [hstep]
      have t0 : r.wrote.toNat = 0 := by omega
      refine ⟨by simpa using p1, by simpa using p2, by simpa using p3, by simpa using p4,
        by simpa using p5, by simp; omega, by simp, by simp, ?_, ?_⟩
      · intro y hy
        simp at hy
        exact List.mem_cons_of_mem x hy
      · intro hok hle2 hb
        simp at hb
        have : r.wrote ≠ 0 := by
          intro h0
          rcases p8 h0 with h1 | h1
          · omega
          · exact absurd rfl (hok _ h1)
        omega
  | case7 c e wrote len fl bytes loops x rest hle r hw hfatal hloops ih =>
      have hr : r = pkc_raw_write c e (len - wrote) (x :: rest) := rfl
      obtain ⟨p1, p2, p3, p4, p5, p6, p7, p8, p9⟩ := pkc_raw_write_conn c e (len - wrote) (x :: rest)
      rw [← hr] at p1 p2 p3 p4 p5 p6 p7 p8 p9
      have hstep : flushLoop2 c e wrote len fl bytes loops (x :: rest)
          = flushLoop2 r.conn r.errno wrote len fl r.wrote (loops - 1) rest := by
        rw [flushLoop2]
        simp only [if_neg hle, if_neg hw, if_neg hfatal, if_neg hloops]
      clear_value r
      obtain ⟨i1, i2, i3, i4, i5, i6, i7, i8, i9, i10⟩ := ih
      rw [hstep]
      have t0 : r.wrote.toNat = 0 := by omega
      refine ⟨i1.trans p1, i2.trans p2, i3.trans p3, i4.trans p4, i5.trans p5,
        by omega, by omega, by omega, ?_, ?_⟩
      · intro y hy
        exact List.mem_cons_of_mem x (i9 y hy)
      · intro hok hle2 hb
        exact i10 (fun y hy => hok y (List.mem_cons_of_mem x hy)) hle2 hb

theorem writeLoop_spec (c : Conn) (e len : Nat) (env : List WRes) :
      (writeLoop c e len env).conn.out_buffer_pos = c.out_buffer_pos
    ∧ (writeLoop c e len env).conn.out_buffer_size = c.out_buffer_size
    ∧ (writeLoop c e len env).conn.sockfd = c.sockfd
    ∧ (writeLoop c e len env).conn.status = c.status
    ∧ (writeLoop c e len env).conn.blocking = c.blocking
    ∧ (writeLoop c e len env).conn.wrote_bytes = c.wrote_bytes + (writeLoop c e len env).wrote.toNat
    ∧ (writeLoop c e len env).wrote.toNat ≤ len
    ∧ (∀ y ∈ (writeLoop c e len env).env, y ∈ env) := by
  induction c, e, len, env using writeLoop.induct with
  | case1 c e len =>
      obtain ⟨p1, p2, p3, p4, p5, p6, p7, p8, p9⟩ := pkc_raw_write_conn c e len []
      rw [writeLoop]
      exact ⟨p1, p2, p3, p4, p5, p6, p7, p9⟩
  | case2 c e len x rest r hretry ih =>
      have hr : r = pkc_raw_write c e len (x :: rest) := rfl
      obtain ⟨p1, p2, p3, p4, p5, p6, p7, p8, p9⟩ := pkc_raw_write_conn c e len (x :: rest)
      rw [← hr] at p1 p2 p3 p4 p5 p6 p7 p8 p9
      have hstep : writeLoop c e len (x :: rest) = writeLoop r.conn r.errno len rest := by
        rw [writeLoop]
        simp only [if_pos hretry]
      clear_value r
      obtain ⟨i1, i2, i3, i4, i5, i6, i7, i8⟩ := ih
      rw [hstep]
      have t0 : r.wrote.toNat = 0 := by omega
      refine ⟨i1.trans p1, i2.trans p2, i3.trans p3, i4.trans p4, i5.trans p5,
        by omega, i7, ?_⟩
      intro y hy
      exact List.mem_cons_of_mem x (i8 y hy)
  | case3 c e len x rest r hretry =>
      have hr : r = pkc_raw_write c e len (x :: rest) := rfl
      obtain ⟨p1, p2, p3, p4, p5, p6, p7, p8, p9⟩ := pkc_raw_write_conn c e len (x :: rest)
      rw [← hr] at p1 p2 p3 p4 p5 p6 p7 p8 p9
      have hstep : writeLoop c e len (x :: rest) = r := by
        rw [writeLoop]
        simp only [if_neg hretry]
      clear_value r
      rw [hstep]
      exact ⟨p1, p2, p3, p4, p5, p6, p7, p9⟩
theorem pkc_flush_finish_ret (c : Conn) (e : Nat) (ret : Int) (mode : FlushMode) (env : List WRes) :
    (pkc_flush_finish c e ret mode env).ret = ret := by
  unfold pkc_flush_finish
  split_ifs <;> rfl

theorem pkc_flush_finish_errno (c : Conn) (e : Nat) (ret : Int) (mode : FlushMode) (env : List WRes) :
    (pkc_flush_finish c e ret mode env).errno = e := by
  unfold pkc_flush_finish
  split_ifs <;> rfl

theorem pkc_flush_finish_env (c : Conn) (e : Nat) (ret : Int) (mode : FlushMode) (env : List WRes) :
    (pkc_flush_finish c e ret mode env).env = env := by
  unfold pkc_flush_finish
  split_ifs <;> rfl

theorem pkc_flush_finish_exit (c : Conn) (e : Nat) (ret : Int) (mode : FlushMode) (env : List WRes) :
    (pkc_flush_finish c e ret mode env).exitPath = FlushExit.normal := by
  unfold pkc_flush_finish
  split_ifs <;> rfl

theorem pkc_flush_finish_pos (c : Conn) (e : Nat) (ret : Int) (mode : FlushMode) (env : List WRes) :
    (pkc_flush_finish c e ret mode env).conn.out_buffer_pos = c.out_buffer_pos := by
  unfold pkc_flush_finish
  split_ifs <;> rfl

theorem pkc_flush_finish_size (c : Conn) (e : Nat) (ret : Int) (mode : FlushMode) (env : List WRes) :
    (pkc_flush_finish c e ret mode env).conn.out_buffer_size = c.out_buffer_size := by
  unfold pkc_flush_finish
  split_ifs <;> rfl

theorem pkc_flush_finish_wb (c : Conn) (e : Nat) (ret : Int) (mode : FlushMode) (env : List WRes) :
    (pkc_flush_finish c e ret mode env).conn.wrote_bytes = c.wrote_bytes := by
  unfold pkc_flush_finish
  split_ifs <;> rfl

theorem pkc_flush_finish_sockfd (c : Conn) (e : Nat) (ret : Int) (mode : FlushMode) (env : List WRes) :
    (pkc_flush_finish c e ret mode env).conn.sockfd = c.sockfd := by
  unfold pkc_flush_finish
  split_ifs <;> rfl

theorem pkc_flush_body_none_spec (c0 : Conn) (mode : FlushMode) (env : List WRes) :
    (pkc_flush_body c0 none mode env).conn.out_buffer_pos
        + (pkc_flush_body c0 none mode env).conn.wrote_bytes
      = c0.out_buffer_pos + c0.wrote_bytes
    ∧ (pkc_flush_body c0 none mode env).conn.out_buffer_size = c0.out_buffer_size
    ∧ (pkc_flush_body c0 none mode env).conn.sockfd = c0.sockfd
    ∧ (∀ y ∈ (pkc_flush_body c0 none mode env).env, y ∈ env) := by
  obtain ⟨q1, q2, q3, q4, q5, q6, q7, q8⟩ := flushLoop1_spec mode c0 0 0 1000 env
  simp only [pkc_flush_body]
  split_ifs with hL hW hF
  · exact ⟨q1, q2, q3, q6⟩
  · simp only [pkc_flush_finish_pos, pkc_flush_finish_wb, pkc_flush_finish_size,
      pkc_flush_finish_sockfd, pkc_flush_finish_env]
    exact ⟨q1, q2, q3, q6⟩
  · simp only [pkc_flush_finish_pos, pkc_flush_finish_wb, pkc_flush_finish_size,
      pkc_flush_finish_sockfd, pkc_flush_finish_env]
    exact ⟨q1, q2, q3, q6⟩
  · simp only [pkc_flush_finish_pos, pkc_flush_finish_wb, pkc_flush_finish_size,
      pkc_flush_finish_sockfd, pkc_flush_finish_env]
    exact ⟨q1, q2, q3, q6⟩
theorem pkc_flush_body_some_spec (c0 : Conn) (d : Nat) (env : List WRes)
    (hok : ∀ y ∈ env, y ≠ WRes.wrote 0)
    (hret : ¬ (pkc_flush_body c0 (some d) FlushMode.blocking env).ret < 0) :
    (pkc_flush_body c0 (some d) FlushMode.blocking env).conn.out_buffer_pos
        + (pkc_flush_body c0 (some d) FlushMode.blocking env).conn.wrote_bytes
      = c0.out_buffer_pos + c0.wrote_bytes + d
    ∧ (∀ y ∈ (pkc_flush_body c0 (some d) FlushMode.blocking env).env, y ∈ env) := by
  obtain ⟨q1, q2, q3, q4, q5, q6, q7, q8⟩ := flushLoop1_spec FlushMode.blocking c0 0 0 1000 env
  obtain ⟨r1, r2, r3, r4, r5, r6, r7, r8, r9, r10⟩ :=
    flushLoop2_spec (flushLoop1 FlushMode.blocking c0 0 0 1000 env).conn
      (flushLoop1 FlushMode.blocking c0 0 0 1000 env).errno 0 d 0 0
      (flushLoop1 FlushMode.blocking c0 0 0 1000 env).loops
      (flushLoop1 FlushMode.blocking c0 0 0 1000 env).env
  simp only [pkc_flush_body] at hret ⊢
  by_cases hL : (flushLoop1 FlushMode.blocking c0 0 0 1000 env).loops ≤ 0
  · rw [if_pos hL] at hret
    simp at hret
  · rw [if_neg hL] at hret ⊢
    by_cases hW : (flushLoop1 FlushMode.blocking c0 0 0 1000 env).wroteLast < 0
    · rw [if_pos hW, pkc_flush_finish_ret] at hret
      exact absurd hW hret
    · rw [if_neg hW] at hret ⊢
      by_cases hP : (flushLoop1 FlushMode.blocking c0 0 0 1000 env).conn.out_buffer_pos = 0
      · rw [if_pos (And.intro trivial hP)] at hret ⊢
        by_cases hB : (flushLoop2 (flushLoop1 FlushMode.blocking c0 0 0 1000 env).conn
            (flushLoop1 FlushMode.blocking c0 0 0 1000 env).errno 0 d 0 0
            (flushLoop1 FlushMode.blocking c0 0 0 1000 env).loops
            (flushLoop1 FlushMode.blocking c0 0 0 1000 env).env).bytes < 0
        · rw [if_pos hB, pkc_flush_finish_ret] at hret
          exact absurd hB hret
        · rw [if_neg hB] at hret ⊢
          have hokl1 : ∀ y ∈ (flushLoop1 FlushMode.blocking c0 0 0 1000 env).env,
              y ≠ WRes.wrote 0 := fun y hy => hok y (q6 y hy)
          have hwr : (flushLoop2 (flushLoop1 FlushMode.blocking c0 0 0 1000 env).conn
              (flushLoop1 FlushMode.blocking c0 0 0 1000 env).errno 0 d 0 0
              (flushLoop1 FlushMode.blocking c0 0 0 1000 env).loops
              (flushLoop1 FlushMode.blocking c0 0 0 1000 env).env).wrote = d :=
            r10 hokl1 (by omega) (by omega)
          constructor
          · rw [pkc_flush_finish_pos, pkc_flush_finish_wb]
            omega
          · rw [pkc_flush_finish_env]
            exact fun y hy => q6 y (r9 y hy)
      · exact absurd (q8 hok rfl (by omega) (by omega)) hP
theorem flushLoop1_eintr (env : List WRes) :
    ∀ (c : Conn) (e : Nat) (fl loops : Int),
      (∀ y ∈ env, y = WRes.err EINTR) → c.out_buffer_pos ≠ 0 → 0 ≤ loops →
      ((flushLoop1 FlushMode.blocking c e fl loops env).loops ≤ 0
       ∨ ((flushLoop1 FlushMode.blocking c e fl loops env).wroteLast = -1
          ∧ (flushLoop1 FlushMode.blocking c e fl loops env).errno = EIO_)) := by
  induction env with
  | nil =>
      intro c e fl loops h hp hl
      right
      simp [flushLoop1, hp]
  | cons x rest ih =>
      intro c e fl loops h hp hl
      have hx : x = WRes.err EINTR := h x (List.mem_cons_self x rest)
      subst hx
      rw [flushLoop1, if_neg hp]
      simp only [pkc_raw_write, if_neg hp]
      simp only [show ¬ (0 : Int) < -1 by decide, if_false]
      simp only [show ¬ (EINTR ≠ EINTR ∧ EINTR ≠ 0) by simp, if_false]
      simp only [show (FlushMode.blocking = FlushMode.blocking) = True by simp, if_true]
      by_cases hloops : 0 < loops
      · rw [if_pos hloops]
        exact ih c EINTR fl (loops - 1) (fun y hy => h y (List.mem_cons_of_mem _ hy)) hp
          (by omega)
      · rw [if_neg hloops]
        left
        simp only
        omega
set_option maxRecDepth 400000 in
/-- C8: evaluating `pkc_flush` at the failing input — a valid socket, one buffered
byte, blocking mode, and 1001 consecutive "interrupted" raw-write results — shows
that the iteration-ceiling return path hands back `-1`/`EIO` while the socket is
still in blocking mode: `set_non_blocking` is skipped on that path, contradicting
the claim that every return path restores non-blocking mode. -/
theorem pkc_flush_ceiling_leaves_blocking :
    connB.blocking = false
    ∧ (0 : Int) ≤ connB.sockfd
    ∧ (pkc_flush connB none FlushMode.blocking
        (List.replicate 1001 (WRes.err EINTR))).exitPath = FlushExit.exhausted
    ∧ (pkc_flush connB none FlushMode.blocking
        (List.replicate 1001 (WRes.err EINTR))).ret = -1
    ∧ (pkc_flush connB none FlushMode.blocking
        (List.replicate 1001 (WRes.err EINTR))).conn.blocking = true := by
  refine ⟨rfl, by decide, ?_, ?_, ?_⟩ <;> decide
theorem pkc_write_tail_spec (b : RawOut) (len : Nat) :
    ((pkc_write_tail b len).ret = Int.ofNat len ∨ (pkc_write_tail b len).ret = -1)
    ∧ ((∀ y ∈ b.env, y ≠ WRes.wrote 0) → (pkc_write_tail b len).ret = Int.ofNat len →
        b.wrote.toNat ≤ len →
        (pkc_write_tail b len).conn.out_buffer_pos + (pkc_write_tail b len).conn.wrote_bytes
          = b.conn.out_buffer_pos + b.conn.wrote_bytes + (len - b.wrote.toNat)) := by
  have hw0 : (if b.wrote < 0 then (0 : Nat) else b.wrote.toNat) = b.wrote.toNat := by
    split_ifs with h
    · omega
    · rfl
  by_cases hlt : b.wrote < Int.ofNat len
  · simp only [pkc_write_tail, if_pos hlt, hw0]
    by_cases hfit : len - b.wrote.toNat ≤ b.conn.out_buffer_size - b.conn.out_buffer_pos
    · rw [if_pos hfit]
      refine ⟨Or.inl rfl, ?_⟩
      intro hok hret hle
      simp
      omega
    · rw [if_neg hfit]
      by_cases hs : b.conn.sockfd < 0
      · simp only [pkc_flush, if_pos hs]
        rw [if_pos (show (-1 : Int) < 0 by norm_num)]
        refine ⟨Or.inr rfl, ?_⟩
        intro hok hret hle
        simp at hret
      · simp only [pkc_flush, if_neg hs, reduceIte]
        by_cases hfr : (pkc_flush_body { b.conn with blocking := true }
            (some (len - b.wrote.toNat)) FlushMode.blocking b.env).ret < 0
        · rw [if_pos hfr]
          refine ⟨Or.inr rfl, ?_⟩
          intro hok hret hle
          simp at hret
        · rw [if_neg hfr]
          refine ⟨Or.inl rfl, ?_⟩
          intro hok hret hle
          obtain ⟨s1, s2⟩ := pkc_flush_body_some_spec { b.conn with blocking := true }
            (len - b.wrote.toNat) b.env hok hfr
          have e1 : ({ b.conn with blocking := true } : Conn).out_buffer_pos
              = b.conn.out_buffer_pos := rfl
          have e2 : ({ b.conn with blocking := true } : Conn).wrote_bytes
              = b.conn.wrote_bytes := rfl
          rw [e1, e2] at s1
          show (pkc_flush_body { b.conn with blocking := true }
              (some (len - b.wrote.toNat)) FlushMode.blocking b.env).conn.out_buffer_pos
            + (pkc_flush_body { b.conn with blocking := true }
              (some (len - b.wrote.toNat)) FlushMode.blocking b.env).conn.wrote_bytes
            = b.conn.out_buffer_pos + b.conn.wrote_bytes + (len - b.wrote.toNat)
          omega
  · simp only [pkc_write_tail, if_neg hlt]
    refine ⟨Or.inl (by simp), ?_⟩
    intro hok hret hle
    rw [Int.ofNat_eq_coe] at hlt
    simp
    omega
theorem pkc_flush_none_nb_spec (c : Conn) (env : List WRes) :
    (pkc_flush c none FlushMode.nonBlocking env).conn.out_buffer_pos
        + (pkc_flush c none FlushMode.nonBlocking env).conn.wrote_bytes
      = c.out_buffer_pos + c.wrote_bytes
    ∧ (∀ y ∈ (pkc_flush c none FlushMode.nonBlocking env).env, y ∈ env) := by
  by_cases hs : c.sockfd < 0
  · simp [pkc_flush, hs]
  · simp only [pkc_flush, if_neg hs, reduceIte]
    obtain ⟨b1, b2, b3, b4⟩ := pkc_flush_body_none_spec c FlushMode.nonBlocking env
    exact ⟨b1, b4⟩

/-- C1 (amended): every `pkc_write` call returns either the full submitted length or
`-1`; and whenever it returns the full length and every platform write event carries
a nonzero count (genuine progress or an error), all of the data is accepted — the
bytes held in the output buffer plus the cumulative transmitted-byte counter grow by
exactly the submitted length. -/
theorem pkc_write_all_or_error (c : Conn) (len : Nat) (env : List WRes) :
    ((pkc_write c len env).ret = Int.ofNat len ∨ (pkc_write c len env).ret = -1)
    ∧ ((∀ y ∈ env, y ≠ WRes.wrote 0) → (pkc_write c len env).ret = Int.ofNat len →
        (pkc_write c len env).conn.out_buffer_pos + (pkc_write c len env).conn.wrote_bytes
          = c.out_buffer_pos + c.wrote_bytes + len) := by
  by_cases h1 : c.out_buffer_pos ≠ 0
  · obtain ⟨f1, f4⟩ := pkc_flush_none_nb_spec c env
    simp only [pkc_write, if_pos h1]
    by_cases h2 : (pkc_flush c none FlushMode.nonBlocking env).conn.out_buffer_pos = 0
    · rw [if_pos h2]
      obtain ⟨w1, w2, w3, w4, w5, w6, w7, w8⟩ :=
        writeLoop_spec (pkc_flush c none FlushMode.nonBlocking env).conn 0 len
          (pkc_flush c none FlushMode.nonBlocking env).env
      obtain ⟨t1, t2⟩ := pkc_write_tail_spec
        (writeLoop (pkc_flush c none FlushMode.nonBlocking env).conn 0 len
          (pkc_flush c none FlushMode.nonBlocking env).env) len
      refine ⟨t1, ?_⟩
      intro hok hret
      have hok2 : ∀ y ∈ (writeLoop (pkc_flush c none FlushMode.nonBlocking env).conn 0 len
          (pkc_flush c none FlushMode.nonBlocking env).env).env, y ≠ WRes.wrote 0 :=
        fun y hy => hok y (f4 y (w8 y hy))
      have := t2 hok2 hret w7
      omega
    · rw [if_neg h2]
      obtain ⟨t1, t2⟩ := pkc_write_tail_spec
        ⟨(pkc_flush c none FlushMode.nonBlocking env).conn, 0, 0,
          (pkc_flush c none FlushMode.nonBlocking env).env⟩ len
      refine ⟨t1, ?_⟩
      intro hok hret
      have hok2 : ∀ y ∈ (⟨(pkc_flush c none FlushMode.nonBlocking env).conn, 0, 0,
          (pkc_flush c none FlushMode.nonBlocking env).env⟩ : RawOut).env,
          y ≠ WRes.wrote 0 := fun y hy => hok y (f4 y hy)
      have := t2 hok2 hret (by simp)
      simp at this
      omega
  · simp only [pkc_write, if_neg h1]
    have h2 : c.out_buffer_pos = 0 := by omega
    rw [if_pos h2]
    obtain ⟨w1, w2, w3, w4, w5, w6, w7, w8⟩ := writeLoop_spec c 0 len env
    obtain ⟨t1, t2⟩ := pkc_write_tail_spec (writeLoop c 0 len env) len
    refine ⟨t1, ?_⟩
    intro hok hret
    have hok2 : ∀ y ∈ (writeLoop c 0 len env).env, y ≠ WRes.wrote 0 :=
      fun y hy => hok y (w8 y hy)
    have := t2 hok2 hret w7
    omega
theorem flushLoop1_pos0 (mode : FlushMode) (c : Conn) (e : Nat) (fl loops : Int)
    (env : List WRes) (h : c.out_buffer_pos = 0) :
    flushLoop1 mode c e fl loops env = ⟨c, e, fl, 0, loops, env⟩ := by
  cases env <;> simp [flushLoop1, h]

theorem writeLoop_eagain (c : Conn) (len : Nat) (env : List WRes) (hlen : len ≠ 0)
    (hE : ∀ y ∈ env, y = WRes.err EAGAIN) :
    (writeLoop c 0 len env).wrote = -1 ∧ (writeLoop c 0 len env).conn = c := by
  rcases env with _ | ⟨x, rest⟩
  · simp [writeLoop, pkc_raw_write, hlen]
  · have hx : x = WRes.err EAGAIN := hE x (List.mem_cons_self x rest)
    subst hx
    simp [writeLoop, pkc_raw_write, hlen, EAGAIN, EINTR]

theorem flushLoop2_eagain (c : Conn) (len : Nat) (loops : Int) (env : List WRes)
    (hlen : len ≠ 0) (hE : ∀ y ∈ env, y = WRes.err EAGAIN) :
    (flushLoop2 c 0 0 len 0 0 loops env).bytes = -1
    ∧ (flushLoop2 c 0 0 len 0 0 loops env).conn = c := by
  rcases env with _ | ⟨x, rest⟩
  · simp [flushLoop2, pkc_raw_write, hlen, Nat.pos_of_ne_zero hlen]
  · have hx : x = WRes.err EAGAIN := hE x (List.mem_cons_self x rest)
    subst hx
    simp [flushLoop2, pkc_raw_write, hlen, Nat.pos_of_ne_zero hlen, EAGAIN, EINTR]

theorem pkc_write_tail_blocked (b : RawOut) (hw : b.wrote = -1)
    (hpos : b.conn.out_buffer_pos = 0) (hcap : b.conn.out_buffer_size = 50)
    (hfd : 0 ≤ b.conn.sockfd) (hE : ∀ y ∈ b.env, y = WRes.err EAGAIN) :
    (pkc_write_tail b 100).ret = -1
    ∧ (pkc_write_tail b 100).conn.out_buffer_pos = 0
    ∧ (pkc_write_tail b 100).blockingFlush = true := by
  have hnfd : ¬ b.conn.sockfd < 0 := by omega
  obtain ⟨l2a, l2b⟩ := flushLoop2_eagain { b.conn with blocking := true } 100 1000 b.env
    (by norm_num) hE
  simp only [hpos, hcap] at l2a l2b
  simp [pkc_write_tail, hw, hcap, hpos, pkc_flush, hnfd, pkc_flush_body,
    flushLoop1_pos0, l2a, l2b, pkc_flush_finish]
  split_ifs <;> simp [l2b]
/-- C9 (amended): writing 100 bytes with buffer capacity 50, an empty output buffer
and a blocked transport (every raw write reports would-block) leaves the output
buffer empty — nothing is copied, since the 100-byte remainder exceeds the 50 bytes
free — and forces a blocking flush attempt of the whole remainder, which fails on
the still-blocked transport, so the call returns `-1`. -/
theorem pkc_write_blocked_100 (c : Conn) (env : List WRes)
    (hpos : c.out_buffer_pos = 0) (hcap : c.out_buffer_size = 50) (hfd : 0 ≤ c.sockfd)
    (hE : ∀ y ∈ env, y = WRes.err EAGAIN) :
    (pkc_write c 100 env).ret = -1
    ∧ (pkc_write c 100 env).conn.out_buffer_pos = 0
    ∧ (pkc_write c 100 env).blockingFlush = true := by
  obtain ⟨wa, wb⟩ := writeLoop_eagain c 100 env (by norm_num) hE
  obtain ⟨w1, w2, w3, w4, w5, w6, w7, w8⟩ := writeLoop_spec c 0 100 env
  have hT := pkc_write_tail_blocked (writeLoop c 0 100 env)
    (by rw [wa]) (by rw [wb, hpos]) (by rw [wb, hcap]) (by rw [wb]; exact hfd)
    (fun y hy => hE y (w8 y hy))
  simp only [pkc_write, if_neg (show ¬ c.out_buffer_pos ≠ 0 by omega), if_pos hpos]
  exact hT

/-- C9 witness: the theorem applied to the concrete baseline connection (socket 1,
capacity 50, empty buffer) and a one-event would-block environment. -/
theorem pkc_write_blocked_100_witness :
    (pkc_write connW 100 [WRes.err EAGAIN]).ret = -1
    ∧ (pkc_write connW 100 [WRes.err EAGAIN]).conn.out_buffer_pos = 0
    ∧ (pkc_write connW 100 [WRes.err EAGAIN]).blockingFlush = true :=
  pkc_write_blocked_100 connW [WRes.err EAGAIN] (by decide) (by decide) (by decide)
    (by decide)

/-- C9 counterexample: in the claimed scenario (100 bytes, capacity 50, empty
buffer, blocked transport) the output buffer does NOT fill to 50 bytes — it stays
empty, because `pkc_write` copies the remainder only when all of it fits in the
free space, and hands the whole 100-byte remainder to the blocking flush, which
fails, so the call returns `-1`. -/
theorem pkc_write_blocked_100_counterexample :
    (pkc_write connW 100 [WRes.err EAGAIN, WRes.err EAGAIN]).conn.out_buffer_pos = 0
    ∧ ¬ (pkc_write connW 100 [WRes.err EAGAIN, WRes.err EAGAIN]).conn.out_buffer_pos = 50
    ∧ (pkc_write connW 100 [WRes.err EAGAIN, WRes.err EAGAIN]).ret = -1
    ∧ (pkc_write connW 100 [WRes.err EAGAIN, WRes.err EAGAIN]).blockingFlush = true := by
  decide

set_option maxRecDepth 400000 in
/-- C1 counterexample: the claim fails on the code in two ways.  (1) With a 4-byte
buffer and a transport whose every `write` returns 0 (no error), writing 6 bytes
returns the full length 6 although nothing was transmitted or buffered — the second
flush loop spins on the zero-result writes until the iteration ceiling, and the
flush then reports the non-negative count written so far, so `pkc_write` drops the
data yet reports success.  (2) On an unallocated connection (socket `-1`) with a
full buffer, the call returns `-1` but no status flag is marked — the connection is
returned completely unchanged. -/
theorem pkc_write_contract_counterexample :
    ((pkc_write connA 6 (List.replicate 1002 (WRes.wrote 0))).ret = Int.ofNat 6
      ∧ (pkc_write connA 6 (List.replicate 1002 (WRes.wrote 0))).conn.out_buffer_pos
          + (pkc_write connA 6 (List.replicate 1002 (WRes.wrote 0))).conn.wrote_bytes
          = 0)
    ∧ ((pkc_write connNoFd 3 []).ret = -1
      ∧ (pkc_write connNoFd 3 []).conn = connNoFd
      ∧ connNoFd.status.cls_write = false
      ∧ connNoFd.status.broken = false) := by
  constructor
  · constructor
    · decide
    · decide
  · decide

/-- C1 witness: the amended theorem applied to a 3-byte write over a transport that
accepts all 3 bytes at once. -/
theorem pkc_write_all_or_error_witness :
    ((pkc_write connW 3 [WRes.wrote 3]).ret = Int.ofNat 3
      ∨ (pkc_write connW 3 [WRes.wrote 3]).ret = -1)
    ∧ (pkc_write connW 3 [WRes.wrote 3]).conn.out_buffer_pos
        + (pkc_write connW 3 [WRes.wrote 3]).conn.wrote_bytes
        = connW.out_buffer_pos + connW.wrote_bytes + 3 :=
  ⟨(pkc_write_all_or_error connW 3 [WRes.wrote 3]).1,
   (pkc_write_all_or_error connW 3 [WRes.wrote 3]).2 (by decide) (by decide)⟩
/-- C5 counterexample: the claim fails on the code in two ways.  (1) In the TLS
data state a negative read with platform error code 0 — retryable by the claim —
but TLS condition want-write does change the status flags: the handshake is
restarted and `WantWrite` is set.  (2) In the (non-broken) handshake state,
`pkc_read` returns a zero count without setting `ClosedForRead`. -/
theorem pkc_read_classification_counterexample :
    (rInWW.errno = 0
      ∧ (pkc_read connSSL rInWW 3).1.status.want_write = true
      ∧ connSSL.status.want_write = false
      ∧ (pkc_read connSSL rInWW 3).1.state = ConnState.sslHandshake)
    ∧ ((pkc_read connHS rInHS 3).2.1 = 0
      ∧ (pkc_read connHS rInHS 3).1.status.cls_read = false) := by
  decide

/-- C5 (amended): for every `pkc_read` call in a data-transfer state (plain data or
TLS data), with `b` the clamped read count: a positive `b` advances the input
offset by `b`, refreshes the activity timestamp, folds `b` into the byte/KB
counters (leaving the byte remainder below 1024) and changes no status flags; a
zero `b` sets `ClosedForRead` and leaves `Broken` (and every other flag) as it
was; a negative `b` is classified by the TLS condition first — want-write restarts
the handshake (sets `WantWrite`, transport state back to handshake); for
want-read/syscall/none (or the plain transport) errno `0`/`EINTR`/`EAGAIN` changes
nothing at all, any other errno sets `Broken`; any other TLS condition sets
`Broken` regardless of errno.  The call returns the clamped count. -/
theorem pkc_read_classification (c : Conn) (inp : ReadIn) (now : Nat)
    (hst : c.state = ConnState.clearData ∨ c.state = ConnState.sslData) :
    ((0 : Int) < (if Int.ofNat (c.in_buffer_size - c.in_buffer_pos) < inp.res
          then Int.ofNat (c.in_buffer_size - c.in_buffer_pos) else inp.res) →
        (pkc_read c inp now).1 = { c with
            in_buffer_pos := c.in_buffer_pos + (if Int.ofNat (c.in_buffer_size - c.in_buffer_pos)
                < inp.res then Int.ofNat (c.in_buffer_size - c.in_buffer_pos) else inp.res).toNat,
            activity := now,
            read_bytes := (kbRoll (c.read_bytes + (if Int.ofNat (c.in_buffer_size
                - c.in_buffer_pos) < inp.res then Int.ofNat (c.in_buffer_size - c.in_buffer_pos)
                else inp.res).toNat) c.read_kb).1,
            read_kb := (kbRoll (c.read_bytes + (if Int.ofNat (c.in_buffer_size
                - c.in_buffer_pos) < inp.res then Int.ofNat (c.in_buffer_size - c.in_buffer_pos)
                else inp.res).toNat) c.read_kb).2 }
        ∧ 1024 * (pkc_read c inp now).1.read_kb + (pkc_read c inp now).1.read_bytes
            = 1024 * c.read_kb + c.read_bytes + (if Int.ofNat (c.in_buffer_size
                - c.in_buffer_pos) < inp.res then Int.ofNat (c.in_buffer_size - c.in_buffer_pos)
                else inp.res).toNat
        ∧ (pkc_read c inp now).1.read_bytes < 1024
        ∧ (pkc_read c inp now).1.status = c.status)
    ∧ ((if Int.ofNat (c.in_buffer_size - c.in_buffer_pos) < inp.res
          then Int.ofNat (c.in_buffer_size - c.in_buffer_pos) else inp.res) = 0 →
        (pkc_read c inp now).1.status = { c.status with cls_read := true }
        ∧ (pkc_read c inp now).1.status.broken = c.status.broken)
    ∧ ((if Int.ofNat (c.in_buffer_size - c.in_buffer_pos) < inp.res
          then Int.ofNat (c.in_buffer_size - c.in_buffer_pos) else inp.res) < 0 →
        (c.state = ConnState.sslData → inp.ssl_errno = SslErr.wantWrite →
          (pkc_read c inp now).1 = pkc_start_handshake c SslErr.wantWrite)
        ∧ (c.state = ConnState.sslData → inp.ssl_errno = SslErr.other →
          (pkc_read c inp now).1.status = { c.status with broken := true })
        ∧ ((c.state = ConnState.clearData ∨ inp.ssl_errno = SslErr.wantRead
            ∨ inp.ssl_errno = SslErr.syscall ∨ inp.ssl_errno = SslErr.none_) →
          ((inp.errno = 0 ∨ inp.errno = EINTR ∨ inp.errno = EAGAIN) →
            (pkc_read c inp now).1 = c)
          ∧ (¬ (inp.errno = 0 ∨ inp.errno = EINTR ∨ inp.errno = EAGAIN) →
            (pkc_read c inp now).1.status = { c.status with broken := true })))
    ∧ (pkc_read c inp now).2.1 = (if Int.ofNat (c.in_buffer_size - c.in_buffer_pos) < inp.res
          then Int.ofNat (c.in_buffer_size - c.in_buffer_pos) else inp.res) := by
  have hnh : ¬ (c.state = ConnState.sslHandshake ∧ c.status.broken = false) := by
    rcases hst with h | h <;> simp [h]
  simp only [pkc_read, if_neg hnh]
  set bb : Int := if Int.ofNat (c.in_buffer_size - c.in_buffer_pos) < inp.res
    then Int.ofNat (c.in_buffer_size - c.in_buffer_pos) else inp.res with hbb
  refine ⟨?_, ?_, ?_, ?_⟩
  · intro hb
    rw [if_pos hb]
    obtain ⟨k1, k2⟩ := kbRoll_spec (c.read_bytes + bb.toNat) c.read_kb
    exact ⟨rfl, by simp; omega, by simpa using k2, rfl⟩
  · intro hb
    rw [if_neg (by omega), if_pos hb]
    exact ⟨rfl, rfl⟩
  · intro hb
    rw [if_neg (by omega), if_neg (by omega)]
    refine ⟨?_, ?_, ?_⟩
    · intro hssl hww
      simp [hssl, hb, hww]
    · intro hssl hot
      simp [hssl, hb, hot]
    · intro hcase
      have hse : (if c.state = ConnState.sslData ∧ bb < 0 then inp.ssl_errno
          else SslErr.none_) = SslErr.wantRead
          ∨ (if c.state = ConnState.sslData ∧ bb < 0 then inp.ssl_errno
          else SslErr.none_) = SslErr.syscall
          ∨ (if c.state = ConnState.sslData ∧ bb < 0 then inp.ssl_errno
          else SslErr.none_) = SslErr.none_ := by
        rcases hcase with h | h | h | h
        · right
          right
          have hns : ¬ (c.state = ConnState.sslData ∧ bb < 0) := by
            rintro ⟨hq, _⟩
            rw [h] at hq
            exact absurd hq (by decide)
          simp [hns]
        · by_cases hd : c.state = ConnState.sslData ∧ bb < 0
          · left; simp [hd, h]
          · right; right; simp [hd]
        · by_cases hd : c.state = ConnState.sslData ∧ bb < 0
          · right; left; simp [hd, h]
          · right; right; simp [hd]
        · by_cases hd : c.state = ConnState.sslData ∧ bb < 0
          · right; right; simp [hd, h]
          · right; right; simp [hd]
      constructor
      · intro hretry
        rcases hse with h | h | h <;> rw [h] <;> rw [if_pos hretry]
      · intro hfatal
        rcases hse with h | h | h <;> rw [h] <;> rw [if_neg hfatal]
  · by_cases hb1 : 0 < bb
    · rw [if_pos hb1]
    · rw [if_neg hb1]
      by_cases hb0 : bb = 0
      · rw [if_pos hb0, hb0]
      · rw [if_neg hb0]
        rcases hqq : (if c.state = ConnState.sslData ∧ bb < 0 then inp.ssl_errno
            else SslErr.none_) with _ | _ | _ | _ | _ <;>
          first
          | rfl
          | (split_ifs <;> rfl)
/-- C5 witness: the amended theorem applied to the plain-data baseline connection —
a retryable would-block failure changes nothing, and a zero-length read sets
`ClosedForRead`. -/
theorem pkc_read_classification_witness :
    (pkc_read connW rInAgain 5).1 = connW
    ∧ (pkc_read connW ⟨0, 0, SslErr.none_, HsRes.ok⟩ 5).1.status
        = { connW.status with cls_read := true } := by
  have T := pkc_read_classification connW rInAgain 5 (Or.inl rfl)
  have T2 := pkc_read_classification connW ⟨0, 0, SslErr.none_, HsRes.ok⟩ 5 (Or.inl rfl)
  constructor
  · exact ((T.2.2.1 (by decide)).2.2 (by decide)).1 (by decide)
  · exact (T2.2.1 (by decide)).1

/-- C7 counterexample: with a concrete (non-ephemeral) port requested and the
socket/bind/listen steps succeeding, `pkc_listen` returns the port reported by
`getsockname` — 8080 — not the sentinel success value 1 the claim predicts for
concrete ports. -/
theorem pkc_listen_counterexample :
    listenEnvC.port_requested ≠ 0
    ∧ (pkc_listen connW listenEnvC 5 0).2 = 8080
    ∧ ((8080 : Int) ≠ 1) := by
  decide

/-- C7 (amended): on a successful listen the call returns the port reported by the
local-address query whenever that query succeeds (for an ephemeral port-0 bind
this is the OS-assigned port); the sentinel success value 1 is returned only when
the local-address query itself fails.  The connection keeps the new socket and
carries exactly the `Changing|Allocated|Listening` flags. -/
theorem pkc_listen_success (c : Conn) (env : ListenEnv) (backlog now : Nat)
    (hs : 0 ≤ env.sock) (hb : env.bindOk = true) (hl : env.listenOk = true) :
    (pkc_listen c env backlog now).2
      = (match env.getsockname with
         | some p => Int.ofNat p
         | none => 1)
    ∧ (pkc_listen c env backlog now).1.sockfd = env.sock
    ∧ (pkc_listen c env backlog now).1.status
        = { statusNone with changing := true, allocated := true, listening := true } := by
  have hcond : ¬ (env.sock < 0 ∨ env.bindOk = false ∨ env.listenOk = false) := by
    push_neg
    exact ⟨by omega, by simp [hb], by simp [hl]⟩
  simp only [pkc_listen, if_neg hcond]
  rcases hg : env.getsockname with _ | p <;>
    simp [hg, pkc_reset_conn, statusNone_union]

/-- C7 witness: the amended theorem applied to the concrete successful environment,
where the local-address query reports port 8080. -/
theorem pkc_listen_success_witness :
    (pkc_listen connW listenEnvC 5 0).2 = Int.ofNat 8080
    ∧ (pkc_listen connW listenEnvC 5 0).1.sockfd = 3 := by
  have T := pkc_listen_success connW listenEnvC 5 0 (by decide) (by decide) (by decide)
  exact ⟨T.1, T.2.1⟩

theorem flushLoop2_zero (d : Nat) (hd : d ≠ 0) :
    ∀ (n : Nat) (c : Conn) (fl bytes : Int) (rest : List WRes),
      flushLoop2 c 0 0 d fl bytes (Int.ofNat n) (List.replicate (n + 1) (WRes.wrote 0) ++ rest)
        = ⟨c, EIO_, 0, fl, 0, -1, rest⟩ := by
  intro n
  induction n with
  | zero =>
      intro c fl bytes rest
      simp [flushLoop2, pkc_raw_write, hd, Nat.le_zero, EINTR]
  | succ m ih =>
      intro c fl bytes rest
      have hle : ¬ (Int.ofNat (m + 1) ≤ 0) := by
        rw [Int.ofNat_eq_coe]
        omega
      have harith : Int.ofNat (m + 1) - 1 = Int.ofNat m := by
        rw [Int.ofNat_eq_coe, Int.ofNat_eq_coe]
        omega
      simp only [List.replicate_succ, List.cons_append]
      rw [flushLoop2]
      simp only [pkc_raw_write, hd, Nat.le_zero, Nat.sub_zero, if_false, Nat.zero_min,
        if_neg hd, Nat.add_zero, EINTR, hle]
      rw [harith]
      have := ih c fl 0 rest
      simp only [List.replicate_succ, List.cons_append] at this ⊢
      simpa using this

theorem pkc_flush_loop2_ceiling (c : Conn) (d : Nat) (rest : List WRes)
    (hs : 0 ≤ c.sockfd) (hp : c.out_buffer_pos = 0) (hd : d ≠ 0) :
    pkc_flush c (some d) FlushMode.blocking (List.replicate 1001 (WRes.wrote 0) ++ rest)
      = ⟨{ c with blocking := false }, EIO_, 0, FlushExit.normal, rest⟩ := by
  have h1 : ¬ c.sockfd < 0 := by omega
  have h2 := flushLoop2_zero d hd 1000 { c with blocking := true } 0 0 rest
  have henv : List.replicate (1000 + 1) (WRes.wrote 0) ++ rest
      = List.replicate 1001 (WRes.wrote 0) ++ rest := by norm_num
  rw [henv] at h2
  rw [show (Int.ofNat 1000) = (1000 : Int) from rfl] at h2
  simp only [pkc_flush, if_neg h1, reduceIte]
  simp only [pkc_flush_body]
  rw [flushLoop1_pos0 FlushMode.blocking { c with blocking := true } 0 0 1000
    (List.replicate 1001 (WRes.wrote 0) ++ rest) hp]
  simp only [show ¬ ((1000 : Int) ≤ 0) by norm_num, if_false,
    show ¬ ((0 : Int) < 0) by norm_num, reduceIte]
  rw [h2]
  simp [pkc_flush_finish, hp]

/-- C3 counterexample: the original claim says that whenever the iteration ceiling
is exhausted the call aborts with a negative return and errno `EIO`.  Flushing 6
new bytes in blocking mode (output buffer empty) against a transport whose every
`write` succeeds with 0 bytes exhausts the shared ceiling in the second
(new-data) loop after 1001 attempts: errno is forced to `EIO`, but the last
`bytes` result is 0 (not negative), so the function falls through to the common
exit and returns the non-negative flushed count 0.  Four of the 1005 supplied
events are left unconsumed, showing the `EIO` came from the ceiling branch and
not from an exhausted event list. -/
theorem pkc_flush_ceiling_nonneg_counterexample :
    (pkc_flush connW (some 6) FlushMode.blocking (List.replicate 1005 (WRes.wrote 0))).errno
        = EIO_
    ∧ (pkc_flush connW (some 6) FlushMode.blocking (List.replicate 1005 (WRes.wrote 0))).env
        = List.replicate 4 (WRes.wrote 0)
    ∧ (pkc_flush connW (some 6) FlushMode.blocking (List.replicate 1005 (WRes.wrote 0))).ret
        = 0
    ∧ ¬ (pkc_flush connW (some 6) FlushMode.blocking (List.replicate 1005 (WRes.wrote 0))).ret
        < 0
    ∧ (pkc_flush connW (some 6) FlushMode.blocking (List.replicate 1005 (WRes.wrote 0))).exitPath
        = FlushExit.normal := by
  have h := pkc_flush_loop2_ceiling connW 6 (List.replicate 4 (WRes.wrote 0))
    (by decide) (by decide) (by decide)
  have henv : List.replicate 1001 (WRes.wrote 0) ++ List.replicate 4 (WRes.wrote 0)
      = List.replicate 1005 (WRes.wrote 0) := by
    rw [← List.replicate_add]
  rw [henv] at h
  rw [h]
  refine ⟨rfl, rfl, rfl, by norm_num, rfl⟩

/-- C3 (amended): a blocking flush always terminates within the fixed iteration
ceiling — an all-"interrupted" storm consumes at most 1001 write attempts (the
initial `do` pass plus the 1000 `loops_left` continuations) and returns
`-1`/`EIO` — and the buffered-output loop's ceiling return always aborts with
`-1`/`EIO`.  The second (new-data) loop shares the same ceiling but does not
abort on exhaustion: when it runs out of iterations over zero-byte writes the
call sets errno to `EIO` yet returns the non-negative flushed count through the
common exit, restoring non-blocking mode. -/
theorem pkc_flush_ceiling_behavior :
    (∀ (c : Conn) (d : Option Nat) (env : List WRes),
        0 ≤ c.sockfd → c.out_buffer_pos ≠ 0 → (∀ y ∈ env, y = WRes.err EINTR) →
        (pkc_flush c d FlushMode.blocking env).ret = -1
        ∧ (pkc_flush c d FlushMode.blocking env).errno = EIO_
        ∧ env.length ≤ (pkc_flush c d FlushMode.blocking env).env.length + 1001)
    ∧ (∀ (c : Conn) (d : Option Nat) (mode : FlushMode) (env : List WRes),
        (pkc_flush c d mode env).exitPath = FlushExit.exhausted →
        (pkc_flush c d mode env).ret = -1 ∧ (pkc_flush c d mode env).errno = EIO_)
    ∧ (∀ (c : Conn) (d : Nat) (rest : List WRes),
        0 ≤ c.sockfd → c.out_buffer_pos = 0 → d ≠ 0 →
        pkc_flush c (some d) FlushMode.blocking (List.replicate 1001 (WRes.wrote 0) ++ rest)
          = ⟨{ c with blocking := false }, EIO_, 0, FlushExit.normal, rest⟩) := by
  refine ⟨?_, ?_, ?_⟩
  · intro c d env hfd hpos hE
    have h1 : ¬ c.sockfd < 0 := by omega
    simp only [pkc_flush, if_neg h1, reduceIte]
    obtain ⟨q1, q2, q3, q4, q5, q6, q7, q8⟩ :=
      flushLoop1_spec FlushMode.blocking { c with blocking := true } 0 0 1000 env
    have hE' := flushLoop1_eintr env { c with blocking := true } 0 0 1000 hE hpos (by omega)
    simp only [pkc_flush_body]
    by_cases hL : (flushLoop1 FlushMode.blocking { c with blocking := true } 0 0 1000 env).loops ≤ 0
    · rw [if_pos hL]
      refine ⟨rfl, rfl, ?_⟩
      simp only
      omega
    · rw [if_neg hL]
      rcases hE' with hL2 | ⟨hw, he⟩
      · exact absurd hL2 hL
      · rw [if_pos (show (flushLoop1 FlushMode.blocking { c with blocking := true }
            0 0 1000 env).wroteLast < 0 by omega)]
        refine ⟨?_, ?_, ?_⟩
        · rw [pkc_flush_finish_ret]
          exact hw
        · rw [pkc_flush_finish_errno]
          exact he
        · rw [pkc_flush_finish_env]
          omega
  · intro c d mode env hex
    by_cases h1 : c.sockfd < 0
    · simp [pkc_flush, h1] at hex
    · rcases d with _ | dlen
      · simp only [pkc_flush, if_neg h1, pkc_flush_body] at hex ⊢
        by_cases hL : (flushLoop1 mode
            (if mode = FlushMode.blocking then { c with blocking := true } else c)
            0 0 1000 env).loops ≤ 0
        · rw [if_pos hL]
          exact ⟨rfl, rfl⟩
        · rw [if_neg hL] at hex
          exfalso
          by_cases hW : (flushLoop1 mode
              (if mode = FlushMode.blocking then { c with blocking := true } else c)
              0 0 1000 env).wroteLast < 0
          · rw [if_pos hW, pkc_flush_finish_exit] at hex
            simp at hex
          · rw [if_neg hW, pkc_flush_finish_exit] at hex
            simp at hex
      · simp only [pkc_flush, if_neg h1, pkc_flush_body] at hex ⊢
        by_cases hL : (flushLoop1 mode
            (if mode = FlushMode.blocking then { c with blocking := true } else c)
            0 0 1000 env).loops ≤ 0
        · rw [if_pos hL]
          exact ⟨rfl, rfl⟩
        · rw [if_neg hL] at hex
          exfalso
          by_cases hW : (flushLoop1 mode
              (if mode = FlushMode.blocking then { c with blocking := true } else c)
              0 0 1000 env).wroteLast < 0
          · rw [if_pos hW, pkc_flush_finish_exit] at hex
            simp at hex
          · rw [if_neg hW] at hex
            by_cases hP : mode = FlushMode.blocking ∧ (flushLoop1 mode
                (if mode = FlushMode.blocking then { c with blocking := true } else c)
                0 0 1000 env).conn.out_buffer_pos = 0
            · rw [if_pos hP] at hex
              by_cases hB : (flushLoop2 (flushLoop1 mode
                  (if mode = FlushMode.blocking then { c with blocking := true } else c)
                  0 0 1000 env).conn
                  (flushLoop1 mode
                  (if mode = FlushMode.blocking then { c with blocking := true } else c)
                  0 0 1000 env).errno 0 dlen 0 0
                  (flushLoop1 mode
                  (if mode = FlushMode.blocking then { c with blocking := true } else c)
                  0 0 1000 env).loops
                  (flushLoop1 mode
                  (if mode = FlushMode.blocking then { c with blocking := true } else c)
                  0 0 1000 env).env).bytes < 0
              · rw [if_pos hB, pkc_flush_finish_exit] at hex
                simp at hex
              · rw [if_neg hB, pkc_flush_finish_exit] at hex
                simp at hex
            · rw [if_neg hP, pkc_flush_finish_exit] at hex
              simp at hex
  · intro c d rest hs hp hd
    exact pkc_flush_loop2_ceiling c d rest hs hp hd

set_option maxRecDepth 100000 in
/-- C3 witness: the amended theorem applied to concrete environments — a short
interrupted storm (the event list runs out first), the full 1001-attempt
interrupted storm that exhausts the first loop's ceiling, and a 1001-attempt
zero-byte-write storm that exhausts the ceiling in the second loop yet returns
0 with errno `EIO`. -/
theorem pkc_flush_ceiling_behavior_witness :
    ((pkc_flush connB none FlushMode.blocking [WRes.err EINTR, WRes.err EINTR]).ret = -1
      ∧ (pkc_flush connB none FlushMode.blocking [WRes.err EINTR, WRes.err EINTR]).errno = EIO_
      ∧ (2 : Nat) ≤ (pkc_flush connB none FlushMode.blocking
          [WRes.err EINTR, WRes.err EINTR]).env.length + 1001)
    ∧ ((pkc_flush connB none FlushMode.blocking
          (List.replicate 1001 (WRes.err EINTR))).ret = -1
      ∧ (pkc_flush connB none FlushMode.blocking
          (List.replicate 1001 (WRes.err EINTR))).errno = EIO_)
    ∧ pkc_flush connW (some 6) FlushMode.blocking (List.replicate 1001 (WRes.wrote 0) ++ [])
        = ⟨{ connW with blocking := false }, EIO_, 0, FlushExit.normal, []⟩ :=
  ⟨pkc_flush_ceiling_behavior.1 connB none [WRes.err EINTR, WRes.err EINTR]
      (by decide) (by decide) (by decide),
   pkc_flush_ceiling_behavior.2.1 connB none FlushMode.blocking
      (List.replicate 1001 (WRes.err EINTR)) (by decide),
   pkc_flush_ceiling_behavior.2.2 connW 6 [] (by decide) (by decide) (by decide)⟩
